import Mathlib

/-!
# WanXiao electricity bot: conversation state machine and low-balance monitor

A shallow embedding of `bot/bot.go`, `model/model.go` and `wanxiao/client.go`.

Conventions of the embedding.

* The bot object is a record `Bot` that every handler takes and returns.  Besides the Go fields
  (`DB`, `states`, `tempData`) it carries two logs of the effects the handlers have on the
  outside world: `sent` (what was handed to the chat transport, oldest first) and `queries`
  (the calls made to `wanxiao.Client.GetBalance`, oldest first).
* `wanxiao.Client.GetBalance` performs network I/O.  The handlers see it as an oracle `Client`:
  the answer to the `k`-th call of a run may depend on `k` and on the two arguments, and is
  otherwise arbitrary.  `wanxiaoGetBalance` is the `Client` that `client.go` computes from the
  HTTP exchange, which is all a reply of the provider can influence.
* `time.Now()` is an argument `now` of each handler; a handler runs at one instant.
  A `time.Time` is an integer number of nanoseconds counted from the zero `time.Time`.
* `gorm` is modelled by its documented behaviour on two tables held as lists in storage order.
  The stored value of a column is the value written.
* `fmt.Sprintf` of a fixed template is a constructor of `Text` carrying the template arguments.
* Go `int` and `time.Duration` are 64 bit; products of durations wrap modulo `2^64`.
* `log.Printf` output is not part of the state.
-/

namespace WanXiao

/-! ## Go base types -/

/-- Values of a Go `float64` as far as this program observes them.  The program never computes
with balances or thresholds; it parses, stores, compares and prints them.  A finite value is
kept as the rational number it denotes. -/
inductive Float64 where
  | nan
  | negInf
  | finite (q : ℚ)
  | posInf
  deriving DecidableEq

/-- The Go comparison `x < y` on `float64`: false as soon as one side is NaN. -/
def Float64.lt : Float64 → Float64 → Bool
  | .nan, _ => false
  | _, .nan => false
  | .negInf, .negInf => false
  | .negInf, _ => true
  | _, .negInf => false
  | .finite a, .finite b => decide (a < b)
  | .finite _, .posInf => true
  | .posInf, _ => false

/-- A `time.Time`, in nanoseconds from the zero time. -/
abbrev Time := Int

/-- Smallest `int64`. -/
def minInt64 : Int := -(2 ^ 63)

/-- Largest `int64`. -/
def maxInt64 : Int := 2 ^ 63 - 1

/-- Two's complement wrap-around of an integer into the `int64` range. -/
def wrapInt64 (x : Int) : Int := (x + 2 ^ 63) % 2 ^ 64 - 2 ^ 63

/-- The constant `time.Minute`, a `time.Duration` in nanoseconds. -/
def Minute : Int := 60000000000

/-- The call `time.Since(t)` evaluated at instant `now`: `now.Sub(t)`, which saturates at the
largest and smallest `time.Duration`. -/
def Since (now t : Time) : Int := max minInt64 (min maxInt64 (now - t))

/-- The characters `unicode.IsSpace` accepts (Unicode White_Space). -/
def isSpace (c : Char) : Bool :=
  let n := c.toNat
  (9 ≤ n && n ≤ 13) || n == 32 || n == 0x85 || n == 0xA0 || n == 0x1680 ||
  (0x2000 ≤ n && n ≤ 0x200A) || n == 0x2028 || n == 0x2029 || n == 0x202F ||
  n == 0x205F || n == 0x3000

/-- The Go function `strings.TrimSpace`: drops leading and trailing white space. -/
def TrimSpace (s : String) : String :=
  String.mk ((s.data.dropWhile isSpace).reverse.dropWhile isSpace).reverse

/-- Value of a string of decimal digits. -/
def digitsValue (ds : List Char) : Nat :=
  ds.foldl (fun acc ch => 10 * acc + (ch.toNat - 48)) 0

/-- The Go function `strconv.Atoi` on a 64 bit platform; `none` stands for a non-nil error
(syntax or range).  Accepted: an optional sign followed by one or more ASCII digits whose value
fits `int`. -/
def Atoi (s : String) : Option Int :=
  let signed : Bool × List Char :=
    match s.data with
    | '-' :: rest => (true, rest)
    | '+' :: rest => (false, rest)
    | rest => (false, rest)
  let ds := signed.2
  if ds.isEmpty then none
  else if ds.all Char.isDigit then
    let v : Int := if signed.1 then -(digitsValue ds : Int) else (digitsValue ds : Int)
    if minInt64 ≤ v ∧ v ≤ maxInt64 then some v else none
  else none

/-! ## model/model.go -/

/-- The row type `model.Binding`. -/
structure Binding where
  ID : Nat
  UserID : Int
  Account : String
  CustomerCode : String
  RoomName : String
  LastBalance : Float64
  LastCheck : Time
  deriving DecidableEq

/-- The columns of `model.User`.  The association field `Bindings` is not a column; it is filled
by `Preload` and represented by pairing a user with a list of bindings. -/
structure User where
  ID : Int
  CreatedAt : Time
  UpdatedAt : Time
  NotifyThreshold : Float64
  NotifyEnabled : Bool
  CheckInterval : Int
  deriving DecidableEq

/-- The type `wanxiao.RoomInfo`. -/
structure RoomInfo where
  RoomName : String
  Balance : Float64
  deriving DecidableEq

/-! ## The store (gorm over sqlite) -/

/-- The two tables, each with the counter sqlite keeps for an AUTOINCREMENT key. -/
structure Database where
  users : List User
  userSeq : Int
  bindings : List Binding
  bindingSeq : Nat
  deriving DecidableEq

namespace Database

/-- `DB.First(&user, id)`: the row with that primary key, or record-not-found. -/
def firstUser (db : Database) (id : Int) : Option User :=
  db.users.find? (fun u => decide (u.ID = id))

/-- Key sqlite assigns to a user inserted without one. -/
def nextUserID (db : Database) : Int :=
  db.users.foldl (fun m u => max m u.ID) (max db.userSeq 0) + 1

/-- The column defaults of `model.User` that gorm substitutes for zero fields on insert
(`default:10.0`, `default:false`, `default:60`), and the creation timestamps. -/
def withDefaults (now : Time) (u : User) : User :=
  { u with
    CreatedAt := if u.CreatedAt = 0 then now else u.CreatedAt
    UpdatedAt := if u.UpdatedAt = 0 then now else u.UpdatedAt
    NotifyThreshold :=
      if u.NotifyThreshold = Float64.finite 0 then Float64.finite 10 else u.NotifyThreshold
    CheckInterval := if u.CheckInterval = 0 then 60 else u.CheckInterval }

/-- `DB.Create(&user)`.  A zero key is assigned by the table; an insert whose key is taken
fails and leaves the table as it was. -/
def createUser (db : Database) (now : Time) (u : User) : Database :=
  let row := withDefaults now u
  if u.ID = 0 then
    let id := db.nextUserID
    { db with users := db.users ++ [{ row with ID := id }], userSeq := id }
  else if db.users.any (fun r => decide (r.ID = u.ID)) then db
  else { db with users := db.users ++ [row], userSeq := max db.userSeq u.ID }

/-- `DB.Save(&user)`: insert when the key is zero, otherwise update every column of the row
with that key (and insert when no row has it). -/
def saveUser (db : Database) (now : Time) (u : User) : Database :=
  if u.ID = 0 then db.createUser now u
  else
    let row := { u with UpdatedAt := now }
    if db.users.any (fun r => decide (r.ID = u.ID)) then
      { db with users := db.users.map (fun r => if r.ID = u.ID then row else r) }
    else db.createUser now u

/-- `DB.Where("user_id = ?", id).Find(&bindings)`. -/
def bindingsOf (db : Database) (userID : Int) : List Binding :=
  db.bindings.filter (fun b => decide (b.UserID = userID))

/-- `RowsAffected > 0` of
`DB.Where("user_id = ? AND account = ? AND customer_code = ?", ...).First(&binding)`. -/
def hasBinding (db : Database) (userID : Int) (account code : String) : Bool :=
  db.bindings.any (fun b =>
    decide (b.UserID = userID) && decide (b.Account = account) && decide (b.CustomerCode = code))

/-- `DB.Create(&binding)`; returns the record with the assigned key written back. -/
def createBinding (db : Database) (b : Binding) : Database × Binding :=
  if b.ID = 0 then
    let id := max db.bindingSeq (db.bindings.foldl (fun m r => max m r.ID) 0) + 1
    let row := { b with ID := id }
    ({ db with bindings := db.bindings ++ [row], bindingSeq := id }, row)
  else if db.bindings.any (fun r => decide (r.ID = b.ID)) then (db, b)
  else ({ db with bindings := db.bindings ++ [b], bindingSeq := max db.bindingSeq b.ID }, b)

/-- `DB.Save(&binding)`; returns the record as gorm leaves it in the caller. -/
def saveBinding (db : Database) (b : Binding) : Database × Binding :=
  if b.ID = 0 then db.createBinding b
  else if db.bindings.any (fun r => decide (r.ID = b.ID)) then
    ({ db with bindings := db.bindings.map (fun r => if r.ID = b.ID then b else r) }, b)
  else db.createBinding b

/-- `DB.Where("user_id = ? AND account = ?", ...).Delete(&model.Binding{})` with its
`RowsAffected`. -/
def deleteBindings (db : Database) (userID : Int) (account : String) : Database × Nat :=
  let hit : Binding → Bool := fun b => decide (b.UserID = userID) && decide (b.Account = account)
  ({ db with bindings := db.bindings.filter (fun b => !hit b) }, db.bindings.countP hit)

/-- `DB.Preload("Bindings").Find(&users)`: every user with the bindings that name it. -/
def preloadUsers (db : Database) : List (User × List Binding) :=
  db.users.map (fun u => (u, db.bindingsOf u.ID))

/-- The stored row with a given key. -/
def bindingByID (db : Database) (id : Nat) : Option Binding :=
  db.bindings.find? (fun b => decide (b.ID = id))

end Database

/-! ## Outbound traffic -/

/-- An inline button: its `Unique` and its `Data`. -/
structure Btn where
  Unique : String
  Data : String
  deriving DecidableEq

/-- The message texts of `bot.go`, one constructor per format string, with the arguments
passed to `fmt.Sprintf`. -/
inductive Text where
  | accountList (rows : List (String × String))
  | askAccount
  | initUser
  | settings (threshold : Float64) (enabled : Bool) (interval : Int)
  | askThreshold
  | askInterval
  | gotAccount (account : String)
  | verifying
  | verifyFailed (err : String)
  | noRooms
  | alreadyBound
  | bindOK (room : String) (balance : Float64)
  | badNumber
  | thresholdUpdated
  | badInterval
  | intervalUpdated
  | lowBalance (room : String) (balance threshold : Float64)
  deriving DecidableEq

/-- The texts of callback responses. -/
inductive Notice where
  | settingsUpdated
  | bindingNotFound
  | unbindOK
  deriving DecidableEq

/-- One call into the chat transport: a `Send` (recipient, text, whether MarkdownV2 is
requested, inline buttons) or a callback `Respond`. -/
inductive Out where
  | send (recipient : Int) (text : Text) (markdownV2 : Bool) (buttons : List Btn)
  | respond (user : Int) (notice : Option Notice)
  deriving DecidableEq

/-- What a handler reads from its `telebot.Context`. -/
structure Context where
  Sender : Int
  Recipient : Int
  Text : String
  Unique : String
  Data : String

/-- The balance provider: answer to the `k`-th call with the given account and customer code. -/
abbrev Client := Nat → String → String → Except String (List RoomInfo)

/-! ## wanxiao/client.go -/

/-- The type `wanxiao.Detail`. -/
structure Detail where
  Use : String
  Odd : String
  BusinessType : String
  Status : String

/-- The type `wanxiao.Body`. -/
structure Body where
  Result : String
  AccountNum : String
  RoomFull : String
  DetailList : List Detail
  Message : String
  RoomVerify : String

/-- The type `wanxiao.Response`. -/
structure Response where
  Code : Int
  Sign : String
  Result : String
  Body : String
  Message : String

/-- What `GetBalance` obtains from outside: `exchange k account code` is the `k`-th HTTP
round trip up to the decoded outer JSON (an error carries the text `GetBalance` returns for a
failed request, read or decoding), `unmarshalBody` is `json.Unmarshal` into a `Body`, and
`parseFloatValue` is the value `strconv.ParseFloat` returns, its error being discarded. -/
structure Wire where
  exchange : Nat → String → String → Except String Response
  unmarshalBody : String → Except String Body
  parseFloatValue : String → Float64

/-- The method `Client.GetBalance` of `client.go`: one room per entry of `detaillist`, each
with the room name of the body. -/
def wanxiaoGetBalance (w : Wire) : Client := fun k account customerCode =>
  match w.exchange k account customerCode with
  | Except.error err => Except.error err
  | Except.ok wxResp =>
    if wxResp.Code ≠ 0 then Except.error ("api error: " ++ wxResp.Message)
    else
      match w.unmarshalBody wxResp.Body with
      | Except.error err => Except.error ("unmarshal inner body error: " ++ err)
      | Except.ok bodyData =>
        Except.ok (bodyData.DetailList.map (fun detail =>
          RoomInfo.mk bodyData.RoomFull (w.parseFloatValue detail.Odd)))

/-! ## bot/bot.go -/

def StateNone : Int := 0
def StateAddAccount_WaitAccount : Int := 1
def StateAddAccount_WaitCode : Int := 2
def StateSettings_WaitThreshold : Int := 3
def StateSettings_WaitInterval : Int := 4

/-- The struct `Bot` with the two effect logs. -/
structure Bot where
  DB : Database
  states : Int → Option Int
  tempData : Int → Option (String → Option String)
  sent : List Out
  queries : List (String × String)

/-- Characters that `escapeMarkdownV2` prefixes with a backslash. -/
def markdownV2Special : List Char :=
  "_*[]()~>#+-=|.!".data ++ [Char.ofNat 96, Char.ofNat 123, Char.ofNat 125, Char.ofNat 92]

def escapeMarkdownV2 (s : String) : String :=
  String.mk (s.data.foldr
    (fun r acc => if r ∈ markdownV2Special then Char.ofNat 92 :: r :: acc else r :: acc) [])

def escapeMarkdownV2Code (s : String) : String :=
  String.mk (s.data.foldr
    (fun r acc =>
      if r = Char.ofNat 96 ∨ r = Char.ofNat 92 then Char.ofNat 92 :: r :: acc else r :: acc) [])

def btnAddAccount : Btn := ⟨"add_acc", ""⟩
def btnToggleAlert : Btn := ⟨"toggle_alert", ""⟩
def btnSetThreshold : Btn := ⟨"set_thres", ""⟩
def btnSetInterval : Btn := ⟨"set_inter", ""⟩

/-- Hand one item to the chat transport. -/
def Bot.emit (bot : Bot) (o : Out) : Bot := { bot with sent := bot.sent ++ [o] }

/-- One call of `bot.Client.GetBalance`. -/
def GetBalance (client : Client) (bot : Bot) (account code : String) :
    Except String (List RoomInfo) × Bot :=
  (client bot.queries.length account code, { bot with queries := bot.queries ++ [(account, code)] })

def setState (bot : Bot) (userID : Int) (state : Int) : Bot :=
  { bot with
    states := fun u => if u = userID then some state else bot.states u
    tempData :=
      if state = StateNone then fun u => if u = userID then none else bot.tempData u
      else bot.tempData }

def getState (bot : Bot) (userID : Int) : Int := (bot.states userID).getD 0

def setTempData (bot : Bot) (userID : Int) (key value : String) : Bot :=
  let m : String → Option String := (bot.tempData userID).getD (fun _ => none)
  { bot with
    tempData := fun u =>
      if u = userID then some (fun k => if k = key then some value else m k)
      else bot.tempData u }

def getTempData (bot : Bot) (userID : Int) (key : String) : String :=
  match bot.tempData userID with
  | none => ""
  | some m => (m key).getD ""

def handleAccounts (c : Context) (bot : Bot) : Bot :=
  let bot := setState bot c.Sender StateNone
  let bindings := bot.DB.bindingsOf c.Sender
  bot.emit (Out.send c.Recipient
    (Text.accountList
      (bindings.map (fun b => (escapeMarkdownV2Code b.Account, escapeMarkdownV2 b.RoomName))))
    true
    (btnAddAccount :: bindings.map (fun b => Btn.mk "unbind" b.Account)))

def handleAddAccountBtn (c : Context) (bot : Bot) : Bot :=
  (setState bot c.Sender StateAddAccount_WaitAccount).emit
    (Out.send c.Recipient Text.askAccount true [])

def handleSettings (now : Time) (c : Context) (bot : Bot) : Bot :=
  let bot := setState bot c.Sender StateNone
  match bot.DB.firstUser c.Sender with
  | none =>
    let bot := { bot with DB := bot.DB.createUser now ⟨c.Sender, 0, 0, Float64.finite 0, false, 0⟩ }
    bot.emit (Out.send c.Recipient Text.initUser false [])
  | some user =>
    bot.emit (Out.send c.Recipient
      (Text.settings user.NotifyThreshold user.NotifyEnabled user.CheckInterval) true
      [btnSetThreshold, btnSetInterval, btnToggleAlert])

def handleToggleAlert (now : Time) (c : Context) (bot : Bot) : Bot :=
  match bot.DB.firstUser c.Sender with
  | none => bot.emit (Out.respond c.Sender none)
  | some user =>
    let user := { user with NotifyEnabled := !user.NotifyEnabled }
    let bot := { bot with DB := bot.DB.saveUser now user }
    let bot := handleSettings now c bot
    bot.emit (Out.respond c.Sender (some Notice.settingsUpdated))

def handleSetThresholdBtn (c : Context) (bot : Bot) : Bot :=
  (setState bot c.Sender StateSettings_WaitThreshold).emit
    (Out.send c.Recipient Text.askThreshold true [])

def handleSetIntervalBtn (c : Context) (bot : Bot) : Bot :=
  (setState bot c.Sender StateSettings_WaitInterval).emit
    (Out.send c.Recipient Text.askInterval true [])

/-- The record `DB.First(&user, userID)` leaves in a zero-valued `user`: the row when there is
one, the zero value otherwise (the error is not inspected by `handleText`). -/
def loadUser (db : Database) (userID : Int) : User :=
  (db.firstUser userID).getD ⟨0, 0, 0, Float64.finite 0, false, 0⟩

/-- The global text handler.  `ParseFloat s` is `strconv.ParseFloat(s, 64)`, with `none` for a
non-nil error. -/
def handleText (client : Client) (ParseFloat : String → Option Float64) (now : Time)
    (c : Context) (bot : Bot) : Bot :=
  let userID := c.Sender
  let state := getState bot userID
  if state = StateAddAccount_WaitAccount then
    let account := c.Text
    let bot := setTempData bot userID "account" account
    let bot := setState bot userID StateAddAccount_WaitCode
    bot.emit (Out.send c.Recipient (Text.gotAccount (escapeMarkdownV2Code account)) true [])
  else if state = StateAddAccount_WaitCode then
    let code := c.Text
    let account := getTempData bot userID "account"
    let bot := bot.emit (Out.send c.Recipient Text.verifying false [])
    match GetBalance client bot account code with
    | (Except.error err, bot) =>
      let bot := setState bot userID StateNone
      bot.emit (Out.send c.Recipient (Text.verifyFailed err) false [])
    | (Except.ok [], bot) =>
      let bot := setState bot userID StateNone
      bot.emit (Out.send c.Recipient Text.noRooms false [])
    | (Except.ok (room0 :: _), bot) =>
      if bot.DB.hasBinding userID account code then
        let bot := setState bot userID StateNone
        bot.emit (Out.send c.Recipient Text.alreadyBound false [])
      else
        let binding : Binding :=
          { ID := 0, UserID := userID, Account := account, CustomerCode := code,
            RoomName := room0.RoomName, LastBalance := room0.Balance, LastCheck := now }
        let bot := { bot with DB := (bot.DB.createBinding binding).1 }
        let bot := setState bot userID StateNone
        bot.emit (Out.send c.Recipient
          (Text.bindOK (escapeMarkdownV2 room0.RoomName) room0.Balance) true [])
  else if state = StateSettings_WaitThreshold then
    match ParseFloat c.Text with
    | none => bot.emit (Out.send c.Recipient Text.badNumber false [])
    | some val =>
      let user := loadUser bot.DB userID
      let user := { user with NotifyThreshold := val }
      let bot := { bot with DB := bot.DB.saveUser now user }
      let bot := setState bot userID StateNone
      let bot := bot.emit (Out.send c.Recipient Text.thresholdUpdated false [])
      handleSettings now c bot
  else if state = StateSettings_WaitInterval then
    match Atoi c.Text with
    | none => bot.emit (Out.send c.Recipient Text.badInterval false [])
    | some val =>
      if val < 1 then bot.emit (Out.send c.Recipient Text.badInterval false [])
      else
        let user := loadUser bot.DB userID
        let user := { user with CheckInterval := val }
        let bot := { bot with DB := bot.DB.saveUser now user }
        let bot := setState bot userID StateNone
        let bot := bot.emit (Out.send c.Recipient Text.intervalUpdated false [])
        handleSettings now c bot
  else bot

def handleCallback (c : Context) (bot : Bot) : Bot :=
  let data := TrimSpace c.Data
  let unique := TrimSpace c.Unique
  if unique = "unbind" then
    let account := data
    let result := bot.DB.deleteBindings c.Sender account
    let bot := { bot with DB := result.1 }
    if result.2 = 0 then bot.emit (Out.respond c.Sender (some Notice.bindingNotFound))
    else handleAccounts c (bot.emit (Out.respond c.Sender (some Notice.unbindOK)))
  else bot

/-- The alert sent for one room. -/
def alertFor (user : User) (room : RoomInfo) : Out :=
  Out.send user.ID
    (Text.lowBalance (escapeMarkdownV2 room.RoomName) room.Balance user.NotifyThreshold) true []

/-- Body of the loop over the rooms of one answer: the loop variable `b` and the bot. -/
def checkRoom (now : Time) (user : User) (acc : Binding × Bot) (room : RoomInfo) :
    Binding × Bot :=
  let bot := if room.Balance.lt user.NotifyThreshold then acc.2.emit (alertFor user room) else acc.2
  let b := { acc.1 with LastBalance := room.Balance, RoomName := room.RoomName, LastCheck := now }
  let saved := bot.DB.saveBinding b
  (saved.2, { bot with DB := saved.1 })

/-- The test `time.Since(b.LastCheck) < time.Duration(user.CheckInterval)*time.Minute` that
makes the monitor skip a binding. -/
def notDue (now : Time) (user : User) (b : Binding) : Bool :=
  decide (Since now b.LastCheck < wrapInt64 (user.CheckInterval * Minute))

/-- Body of the loop over the bindings of one user. -/
def checkBinding (client : Client) (now : Time) (user : User) (bot : Bot) (b : Binding) : Bot :=
  if notDue now user b then bot
  else
    match GetBalance client bot b.Account b.CustomerCode with
    | (Except.error _, bot) => bot
    | (Except.ok rooms, bot) => (rooms.foldl (checkRoom now user) (b, bot)).2

/-- Body of the loop over the users. -/
def checkUser (client : Client) (now : Time) (bot : Bot) (entry : User × List Binding) : Bot :=
  if !entry.1.NotifyEnabled then bot
  else entry.2.foldl (checkBinding client now entry.1) bot

/-- The monitoring pass, called by the scheduler. -/
def CheckLowBalance (client : Client) (now : Time) (bot : Bot) : Bot :=
  bot.DB.preloadUsers.foldl (checkUser client now) bot

/-! ## Specification-side definitions for the monitoring pass -/

/-- The cache refresh of one binding from one room. -/
def refresh (now : Time) (b : Binding) (room : RoomInfo) : Binding :=
  { b with LastBalance := room.Balance, RoomName := room.RoomName, LastCheck := now }

/-- The bindings a pass at `now` queries, each with its user, in the order of the two loops:
the bindings that are not skipped, of the users whose alerts are on. -/
def dueList (now : Time) (db : Database) : List (User × Binding) :=
  (db.users.filter (fun u => u.NotifyEnabled)).flatMap (fun u =>
    ((db.bindingsOf u.ID).filter (fun b => !notDue now u b)).map (fun b => (u, b)))

/-- What `checkBinding` does for a binding it does not skip: the query and the loop over the
rooms. -/
def queryBinding (client : Client) (now : Time) (bot : Bot) (e : User × Binding) : Bot :=
  match GetBalance client bot e.2.Account e.2.CustomerCode with
  | (Except.error _, bot) => bot
  | (Except.ok rooms, bot) => (rooms.foldl (checkRoom now e.1) (e.2, bot)).2

/-- The alerts owed to `user` for one answer of the provider: none for a failure, one for each
room whose balance is below the threshold otherwise. -/
def alertsOf (user : User) : Except String (List RoomInfo) → List Out
  | Except.error _ => []
  | Except.ok rooms =>
    (rooms.filter (fun r => r.Balance.lt user.NotifyThreshold)).map (alertFor user)

/-- The alerts owed for a list of due bindings whose first query is call number `k`. -/
def passAlerts (client : Client) : Nat → List (User × Binding) → List Out
  | _, [] => []
  | k, e :: rest =>
    alertsOf e.1 (client k e.2.Account e.2.CustomerCode) ++ passAlerts client (k + 1) rest

/-- The primary keys of the store: no two users and no two bindings share a key, and a stored
row has a non-zero key (gorm takes a zero key as absent and lets the table assign one). -/
structure WellKeyed (db : Database) : Prop where
  userKeys : (db.users.map User.ID).Nodup
  bindingKeys : (db.bindings.map Binding.ID).Nodup
  bindingKeysPos : ∀ b ∈ db.bindings, b.ID ≠ 0
  userKeysPos : ∀ u ∈ db.users, u.ID ≠ 0

/-- Every query of a pass over the listed bindings, the first one being call number `k`, is
answered with at least one room. -/
def passSucceeds (client : Client) : Nat → List (User × Binding) → Bool
  | _, [] => true
  | k, e :: rest =>
    (match client k e.2.Account e.2.CustomerCode with
      | Except.ok (_ :: _) => true
      | _ => false) && passSucceeds client (k + 1) rest

/-- The provider arguments of a due binding. -/
def queryOf (e : User × Binding) : String × String := (e.2.Account, e.2.CustomerCode)

/-- No two bindings share (user id, account identifier, customer code). -/
def UniqueTuples (db : Database) : Prop :=
  db.bindings.Pairwise (fun a b =>
    ¬ (a.UserID = b.UserID ∧ a.Account = b.Account ∧ a.CustomerCode = b.CustomerCode))

/-! ## Example data -/

/-- A user with alerts on, threshold 10.0 and a check every 60 minutes. -/
def sampleUser : User := ⟨7, 0, 0, Float64.finite 10, true, 60⟩

/-- A binding of `sampleUser`, last checked at the zero time. -/
def sampleBinding : Binding := ⟨1, 7, "2021001", "1024", "A-101", Float64.finite 20, 0⟩

/-- A bot whose store holds `sampleUser` and `sampleBinding`, with every user idle. -/
def sampleBot : Bot :=
  { DB := ⟨[sampleUser], 7, [sampleBinding], 1⟩
    states := fun _ => none
    tempData := fun _ => none
    sent := []
    queries := [] }

/-- An instant more than sixty minutes after the zero time. -/
def sampleNow : Time := 4000000000000

/-- A reply of the provider for room `A-101` with the given `detaillist`. -/
def replyWith (details : List Detail) : Wire :=
  { exchange := fun _ _ _ => Except.ok ⟨0, "", "", "", ""⟩
    unmarshalBody := fun _ => Except.ok ⟨"", "2021001", "A-101", details, "", ""⟩
    parseFloatValue := fun s => if s = "3.0" then Float64.finite 3 else Float64.finite 0 }

/-- A provider that reports one room with balance 3.0. -/
def lowClient : Client := wanxiaoGetBalance (replyWith [⟨"", "3.0", "", ""⟩])

/-- A provider that answers with an empty `detaillist`, hence without any room. -/
def emptyClient : Client := wanxiaoGetBalance (replyWith [])

/-- A provider that is unreachable. -/
def downClient : Client :=
  wanxiaoGetBalance
    { replyWith [] with exchange := fun _ _ _ => Except.error "request error: timeout" }

/-- The example bot with the check interval of its user set to 153722868 minutes, the least
interval whose length in nanoseconds exceeds the largest `time.Duration`. -/
def longIntervalBot : Bot :=
  { sampleBot with
    DB := ⟨[{ sampleUser with CheckInterval := 153722868 }], 7, [sampleBinding], 1⟩ }

/-- The rational number 7.5, in lowest terms. -/
def sevenAndHalf : ℚ := ⟨15, 2, by decide, by decide⟩

/-- A stand-in for `strconv.ParseFloat` that knows two inputs. -/
def sampleParseFloat : String → Option Float64 := fun s =>
  if s = "7.5" then some (Float64.finite sevenAndHalf)
  else if s = "10" then some (Float64.finite 10)
  else none

/-- A text message from chat user 7 in the private chat with the bot. -/
def textFrom7 (text : String) : Context := ⟨7, 7, text, "", ""⟩

/-- The example bot after user 7 pressed "add account" and sent the account `2021001`. -/
def awaitingCodeBot : Bot :=
  handleText lowClient sampleParseFloat sampleNow (textFrom7 "2021001")
    (handleAddAccountBtn (textFrom7 "") sampleBot)

/-- The example bot after user 7 pressed "change threshold". -/
def awaitingThresholdBot : Bot := handleSetThresholdBtn (textFrom7 "") sampleBot

/-- The example bot after user 7 pressed "change interval". -/
def awaitingIntervalBot : Bot := handleSetIntervalBtn (textFrom7 "") sampleBot

/-- A bot with an empty store in which user 42 is awaiting a new threshold. -/
def strangerThresholdBot : Bot :=
  { DB := ⟨[], 0, [], 0⟩
    states := fun u => if u = 42 then some StateSettings_WaitThreshold else none
    tempData := fun _ => none
    sent := []
    queries := [] }

/-- A bot with an empty store in which user 42 is awaiting a new interval. -/
def strangerIntervalBot : Bot :=
  { strangerThresholdBot with
    states := fun u => if u = 42 then some StateSettings_WaitInterval else none }

/-- A text message from chat user 42. -/
def textFrom42 (text : String) : Context := ⟨42, 42, text, "", ""⟩

/-- The press of an unbind button by chat user 7, carrying the given account as data. -/
def unbindFrom7 (account : String) : Context := ⟨7, 7, "", "unbind", account⟩

/-- The example bot after user 7 pressed "add account". -/
def awaitingAccountBot : Bot := handleAddAccountBtn (textFrom7 "") sampleBot

/-- The example bot without any binding. -/
def noBindingBot : Bot := { sampleBot with DB := ⟨[sampleUser], 7, [], 0⟩ }

/-- The bot after user 7, without bindings so far, pressed "add account", sent an account text
that begins with a blank, then the customer code `1024`, the provider reporting one room. -/
def blankAccountBot : Bot :=
  handleText lowClient sampleParseFloat sampleNow (textFrom7 "1024")
    (handleText lowClient sampleParseFloat sampleNow (textFrom7 " 2021001")
      (handleAddAccountBtn (textFrom7 "") noBindingBot))

/-- User 7 presses "add account", sends the account `2021001`, then the customer code `1024`,
the provider reporting one room. -/
def addAccountFlow (bot : Bot) : Bot :=
  handleText lowClient sampleParseFloat sampleNow (textFrom7 "1024")
    (handleText lowClient sampleParseFloat sampleNow (textFrom7 "2021001")
      (handleAddAccountBtn (textFrom7 "") bot))

/-! ## The monitoring pass as one loop over the due bindings -/

theorem checkBinding_eq (client : Client) (now : Time) (u : User) (bot : Bot) (b : Binding) :
    checkBinding client now u bot b
      = if notDue now u b then bot else queryBinding client now bot (u, b) := by
  unfold checkBinding queryBinding
  rfl

theorem foldl_checkBinding (client : Client) (now : Time) (u : User) (bs : List Binding)
    (bot : Bot) :
    bs.foldl (checkBinding client now u) bot
      = ((bs.filter (fun b => !notDue now u b)).map (fun b => (u, b))).foldl
          (queryBinding client now) bot := by
  induction bs generalizing bot with
  | nil => rfl
  | cons b bs ih =>
    rw [List.foldl_cons, checkBinding_eq, ih]
    by_cases h : notDue now u b = true
    · simp [h]
    · simp [h]

theorem foldl_checkUser (client : Client) (now : Time) (db0 : Database) (us : List User)
    (bot : Bot) :
    (us.map (fun u => (u, db0.bindingsOf u.ID))).foldl (checkUser client now) bot
      = ((us.filter (fun u => u.NotifyEnabled)).flatMap (fun u =>
          ((db0.bindingsOf u.ID).filter (fun b => !notDue now u b)).map (fun b => (u, b)))).foldl
          (queryBinding client now) bot := by
  induction us generalizing bot with
  | nil => rfl
  | cons u us ih =>
    rw [List.map_cons, List.foldl_cons, ih]
    by_cases h : u.NotifyEnabled = true
    · simp [checkUser, h, List.foldl_append, foldl_checkBinding]
    · simp [checkUser, h]

theorem CheckLowBalance_eq (client : Client) (now : Time) (bot : Bot) :
    CheckLowBalance client now bot = (dueList now bot.DB).foldl (queryBinding client now) bot := by
  unfold CheckLowBalance dueList Database.preloadUsers
  exact foldl_checkUser client now bot.DB bot.DB.users bot

/-! ## Effects of one store write -/

theorem saveBinding_snd (db : Database) (b : Binding) (hb : b.ID ≠ 0) :
    (db.saveBinding b).2 = b := by
  unfold Database.saveBinding Database.createBinding
  simp only [hb, if_false]
  split <;> simp

theorem saveBinding_users (db : Database) (b : Binding) :
    (db.saveBinding b).1.users = db.users := by
  unfold Database.saveBinding Database.createBinding
  split <;> (try split) <;> simp

theorem find_replace_other (rs : List Binding) (b : Binding) (id : Nat) (hid : id ≠ b.ID) :
    (rs.map (fun r => if r.ID = b.ID then b else r)).find? (fun x => decide (x.ID = id))
      = rs.find? (fun x => decide (x.ID = id)) := by
  have hb : ¬ b.ID = id := fun h => hid h.symm
  induction rs with
  | nil => rfl
  | cons r rs ih =>
    by_cases hr : r.ID = b.ID
    · have hrid : ¬ r.ID = id := fun h => hid (h.symm.trans hr)
      simp only [List.map_cons, hr, if_true, List.find?_cons, hb, hrid, decide_False]
      exact ih
    · by_cases hrid : r.ID = id
      · subst hrid
        simp [List.find?_cons, hr]
      · simp only [List.map_cons, hr, if_false, List.find?_cons, hrid, decide_False]
        exact ih

theorem find_replace_self (rs : List Binding) (b : Binding) (hex : ∃ x ∈ rs, x.ID = b.ID) :
    (rs.map (fun r => if r.ID = b.ID then b else r)).find? (fun x => decide (x.ID = b.ID))
      = some b := by
  induction rs with
  | nil => simp at hex
  | cons r rs ih =>
    by_cases hr : r.ID = b.ID
    · simp [List.find?_cons, hr]
    · have hex2 : ∃ x ∈ rs, x.ID = b.ID := by
        obtain ⟨x, hx, hxb⟩ := hex
        rcases List.mem_cons.mp hx with h | h
        · exact absurd (h ▸ hxb) hr
        · exact ⟨x, h, hxb⟩
      simp only [List.map_cons, hr, if_false, List.find?_cons, decide_False]
      exact ih hex2

theorem saveBinding_lookup (db : Database) (b : Binding) (hb : b.ID ≠ 0) (id : Nat) :
    (db.saveBinding b).1.bindingByID id = if id = b.ID then some b else db.bindingByID id := by
  unfold Database.saveBinding Database.createBinding Database.bindingByID
  simp only [hb, if_false]
  by_cases hex : db.bindings.any (fun r => decide (r.ID = b.ID)) = true
  · simp only [hex, if_true]
    have hex2 : ∃ x ∈ db.bindings, x.ID = b.ID := by simpa using hex
    by_cases hid : id = b.ID
    · subst hid
      simp only [if_true]
      exact find_replace_self db.bindings b hex2
    · simp only [hid, if_false]
      exact find_replace_other db.bindings b id hid
  · simp only [hex, if_false]
    have hno : ∀ x ∈ db.bindings, ¬ x.ID = b.ID := by simpa using hex
    by_cases hid : id = b.ID
    · subst hid
      have : db.bindings.find? (fun x => decide (x.ID = b.ID)) = none := by
        simpa using hno
      simp [List.find?_append, this]
    · have : ¬ b.ID = id := fun h => hid h.symm
      simp [List.find?_append, hid, this]

theorem saveBinding_mem (db : Database) (b : Binding) (hb : b.ID ≠ 0) (r : Binding)
    (hr : r ∈ (db.saveBinding b).1.bindings) :
    r = b ∨ (r ∈ db.bindings ∧ r.ID ≠ b.ID) := by
  unfold Database.saveBinding Database.createBinding at hr
  simp only [hb, if_false] at hr
  by_cases hex : db.bindings.any (fun r => decide (r.ID = b.ID)) = true
  · simp only [hex, if_true, List.mem_map] at hr
    obtain ⟨x, hx, hxr⟩ := hr
    by_cases hxb : x.ID = b.ID
    · left; simpa [hxb] using hxr.symm
    · right
      simp only [hxb, if_false] at hxr
      subst hxr
      exact ⟨hx, hxb⟩
  · simp only [hex, if_false] at hr
    have hno : ∀ x ∈ db.bindings, ¬ x.ID = b.ID := by simpa using hex
    simp only [Bool.false_eq_true, if_false, List.mem_append, List.mem_singleton] at hr
    rcases hr with h | h
    · right; exact ⟨h, hno r h⟩
    · left; exact h

/-! ## Effects of the loop over the rooms of one answer -/

theorem checkRoom_fst (now : Time) (u : User) (acc : Binding × Bot) (room : RoomInfo)
    (h : acc.1.ID ≠ 0) : (checkRoom now u acc room).1 = refresh now acc.1 room := by
  unfold checkRoom
  exact saveBinding_snd _ _ h

theorem foldl_refresh_ID (now : Time) (rooms : List RoomInfo) (b : Binding) :
    (rooms.foldl (refresh now) b).ID = b.ID := by
  induction rooms generalizing b with
  | nil => rfl
  | cons r rs ih => rw [List.foldl_cons, ih]; rfl

theorem refresh_foldl_refresh (now : Time) (rooms : List RoomInfo) (b : Binding) (r : RoomInfo) :
    refresh now (rooms.foldl (refresh now) b) r = refresh now b r := by
  induction rooms generalizing b with
  | nil => rfl
  | cons x xs ih => rw [List.foldl_cons, ih]; rfl

theorem foldl_refresh_last (now : Time) (rooms : List RoomInfo) (b : Binding) (last : RoomInfo)
    (h : rooms.getLast? = some last) : rooms.foldl (refresh now) b = refresh now b last := by
  obtain ⟨init, rfl⟩ := List.getLast?_eq_some_iff.mp h
  rw [List.foldl_append]
  exact refresh_foldl_refresh now init b last

theorem foldl_checkRoom_fst (now : Time) (u : User) (rooms : List RoomInfo) (b : Binding)
    (bot : Bot) (hb : b.ID ≠ 0) :
    (rooms.foldl (checkRoom now u) (b, bot)).1 = rooms.foldl (refresh now) b := by
  induction rooms generalizing b bot with
  | nil => rfl
  | cons r rs ih =>
    rw [List.foldl_cons, List.foldl_cons]
    have h1 : (checkRoom now u (b, bot) r).1 = refresh now b r := checkRoom_fst now u (b, bot) r hb
    have h2 : checkRoom now u (b, bot) r = (refresh now b r, (checkRoom now u (b, bot) r).2) := by
      rw [← h1]
    rw [h2]
    exact ih (refresh now b r) _ hb

theorem foldl_checkRoom_sent (now : Time) (u : User) (rooms : List RoomInfo) (b : Binding)
    (bot : Bot) :
    (rooms.foldl (checkRoom now u) (b, bot)).2.sent
      = bot.sent ++ alertsOf u (Except.ok rooms) := by
  induction rooms generalizing b bot with
  | nil => simp [alertsOf]
  | cons r rs ih =>
    rw [List.foldl_cons]
    have h2 : checkRoom now u (b, bot) r
        = ((checkRoom now u (b, bot) r).1, (checkRoom now u (b, bot) r).2) := rfl
    rw [h2, ih]
    by_cases hlow : r.Balance.lt u.NotifyThreshold = true
    · simp [checkRoom, alertsOf, hlow, Bot.emit, List.filter_cons]
    · simp [checkRoom, alertsOf, hlow, List.filter_cons]

theorem foldl_checkRoom_frame (now : Time) (u : User) (rooms : List RoomInfo) (b : Binding)
    (bot : Bot) :
    (rooms.foldl (checkRoom now u) (b, bot)).2.queries = bot.queries
    ∧ (rooms.foldl (checkRoom now u) (b, bot)).2.states = bot.states
    ∧ (rooms.foldl (checkRoom now u) (b, bot)).2.tempData = bot.tempData
    ∧ (rooms.foldl (checkRoom now u) (b, bot)).2.DB.users = bot.DB.users := by
  induction rooms generalizing b bot with
  | nil => simp
  | cons r rs ih =>
    rw [List.foldl_cons]
    have h2 : checkRoom now u (b, bot) r
        = ((checkRoom now u (b, bot) r).1, (checkRoom now u (b, bot) r).2) := rfl
    rw [h2]
    obtain ⟨i1, i2, i3, i4⟩ := ih (checkRoom now u (b, bot) r).1 (checkRoom now u (b, bot) r).2
    rw [i1, i2, i3, i4]
    refine ⟨?_, ?_, ?_, ?_⟩
    · unfold checkRoom; split <;> rfl
    · unfold checkRoom; split <;> rfl
    · unfold checkRoom; split <;> rfl
    · unfold checkRoom
      simp only [saveBinding_users]
      split <;> rfl

theorem foldl_checkRoom_lookup (now : Time) (u : User) (rooms : List RoomInfo) (b : Binding)
    (bot : Bot) (hb : b.ID ≠ 0) (id : Nat) :
    (rooms.foldl (checkRoom now u) (b, bot)).2.DB.bindingByID id
      = if id = b.ID ∧ rooms ≠ [] then some (rooms.foldl (refresh now) b)
        else bot.DB.bindingByID id := by
  induction rooms generalizing b bot with
  | nil => simp
  | cons r rs ih =>
    rw [List.foldl_cons, List.foldl_cons]
    have h1 : (checkRoom now u (b, bot) r).1 = refresh now b r := checkRoom_fst now u (b, bot) r hb
    have h2 : checkRoom now u (b, bot) r = (refresh now b r, (checkRoom now u (b, bot) r).2) := by
      rw [← h1]
    rw [h2, ih (refresh now b r) _ hb]
    have hstep : (checkRoom now u (b, bot) r).2.DB.bindingByID id
        = if id = b.ID then some (refresh now b r) else bot.DB.bindingByID id := by
      have := saveBinding_lookup
        (if r.Balance.lt u.NotifyThreshold then bot.emit (alertFor u r) else bot).DB
        (refresh now b r) hb id
      have hdb : (if r.Balance.lt u.NotifyThreshold then bot.emit (alertFor u r) else bot).DB
          = bot.DB := by split <;> rfl
      rw [hdb] at this
      unfold checkRoom
      simp only [hdb]
      exact this
    rw [hstep]
    have hid : (refresh now b r).ID = b.ID := rfl
    rw [hid]
    by_cases hidb : id = b.ID
    · by_cases hrs : rs = []
      · subst hrs; simp [hidb]
      · simp [hidb, hrs]
    · simp [hidb]

theorem foldl_checkRoom_mem (now : Time) (u : User) (rooms : List RoomInfo) (b : Binding)
    (bot : Bot) (hb : b.ID ≠ 0) (x : Binding)
    (hx : x ∈ (rooms.foldl (checkRoom now u) (b, bot)).2.DB.bindings) :
    (x.LastCheck = now ∧ rooms ≠ []) ∨ (x ∈ bot.DB.bindings ∧ (rooms ≠ [] → x.ID ≠ b.ID)) := by
  induction rooms generalizing b bot with
  | nil => right; exact ⟨hx, fun h => absurd rfl h⟩
  | cons r rs ih =>
    rw [List.foldl_cons] at hx
    have h1 : (checkRoom now u (b, bot) r).1 = refresh now b r := checkRoom_fst now u (b, bot) r hb
    have h2 : checkRoom now u (b, bot) r = (refresh now b r, (checkRoom now u (b, bot) r).2) := by
      rw [← h1]
    rw [h2] at hx
    have hstep : ∀ y ∈ (checkRoom now u (b, bot) r).2.DB.bindings,
        y = refresh now b r ∨ (y ∈ bot.DB.bindings ∧ y.ID ≠ b.ID) := by
      intro y hy
      have hdb : (if r.Balance.lt u.NotifyThreshold then bot.emit (alertFor u r) else bot).DB
          = bot.DB := by split <;> rfl
      unfold checkRoom at hy
      simp only [hdb] at hy
      exact saveBinding_mem bot.DB (refresh now b r) hb y hy
    rcases ih (refresh now b r) _ hb hx with h | ⟨hmem, hne⟩
    · left; exact ⟨h.1, List.cons_ne_nil _ _⟩
    · rcases hstep x hmem with h | ⟨h, hne2⟩
      · left; exact ⟨by rw [h]; rfl, List.cons_ne_nil _ _⟩
      · right; exact ⟨h, fun _ => hne2⟩

/-! ## Effects of the work on one due binding -/

theorem queryBinding_queries (client : Client) (now : Time) (bot : Bot) (e : User × Binding) :
    (queryBinding client now bot e).queries = bot.queries ++ [queryOf e] := by
  unfold queryBinding GetBalance
  cases h : client bot.queries.length e.2.Account e.2.CustomerCode with
  | error err => rfl
  | ok rooms => simp only [(foldl_checkRoom_frame now e.1 rooms e.2 _).1]; rfl

theorem queryBinding_sent (client : Client) (now : Time) (bot : Bot) (e : User × Binding) :
    (queryBinding client now bot e).sent
      = bot.sent ++ alertsOf e.1 (client bot.queries.length e.2.Account e.2.CustomerCode) := by
  unfold queryBinding GetBalance
  cases h : client bot.queries.length e.2.Account e.2.CustomerCode with
  | error err => simp [alertsOf]
  | ok rooms => simp only [foldl_checkRoom_sent]

theorem queryBinding_frame (client : Client) (now : Time) (bot : Bot) (e : User × Binding) :
    (queryBinding client now bot e).states = bot.states
    ∧ (queryBinding client now bot e).tempData = bot.tempData
    ∧ (queryBinding client now bot e).DB.users = bot.DB.users := by
  unfold queryBinding GetBalance
  cases h : client bot.queries.length e.2.Account e.2.CustomerCode with
  | error err => exact ⟨rfl, rfl, rfl⟩
  | ok rooms =>
    obtain ⟨_, h2, h3, h4⟩ := foldl_checkRoom_frame now e.1 rooms e.2
      { bot with queries := bot.queries ++ [(e.2.Account, e.2.CustomerCode)] }
    exact ⟨h2, h3, h4⟩

theorem queryBinding_lookup (client : Client) (now : Time) (bot : Bot) (e : User × Binding)
    (he : e.2.ID ≠ 0) (id : Nat) :
    (queryBinding client now bot e).DB.bindingByID id
      = match client bot.queries.length e.2.Account e.2.CustomerCode with
        | Except.error _ => bot.DB.bindingByID id
        | Except.ok rooms =>
          if id = e.2.ID ∧ rooms ≠ [] then some (rooms.foldl (refresh now) e.2)
          else bot.DB.bindingByID id := by
  unfold queryBinding GetBalance
  cases h : client bot.queries.length e.2.Account e.2.CustomerCode with
  | error err => rfl
  | ok rooms => simp only [foldl_checkRoom_lookup now e.1 rooms e.2 _ he id]

theorem queryBinding_lookup_other (client : Client) (now : Time) (bot : Bot) (e : User × Binding)
    (he : e.2.ID ≠ 0) (id : Nat) (hid : id ≠ e.2.ID) :
    (queryBinding client now bot e).DB.bindingByID id = bot.DB.bindingByID id := by
  rw [queryBinding_lookup client now bot e he id]
  split
  · rfl
  · simp [hid]

theorem queryBinding_mem (client : Client) (now : Time) (bot : Bot) (e : User × Binding)
    (he : e.2.ID ≠ 0) (x : Binding) (hx : x ∈ (queryBinding client now bot e).DB.bindings) :
    x.LastCheck = now ∨ (x ∈ bot.DB.bindings ∧
      ((∃ r rs, client bot.queries.length e.2.Account e.2.CustomerCode = Except.ok (r :: rs)) →
        x.ID ≠ e.2.ID)) := by
  unfold queryBinding GetBalance at hx
  cases h : client bot.queries.length e.2.Account e.2.CustomerCode with
  | error err =>
    rw [h] at hx
    right
    refine ⟨hx, ?_⟩
    rintro ⟨r, rs, hr⟩
    cases hr
  | ok rooms =>
    rw [h] at hx
    rcases foldl_checkRoom_mem now e.1 rooms e.2 _ he x hx with hl | ⟨hm, hne⟩
    · left; exact hl.1
    · right
      refine ⟨hm, ?_⟩
      rintro ⟨r, rs, hr⟩
      cases hr
      exact hne (List.cons_ne_nil _ _)

/-! ## Effects of the whole pass -/

theorem foldl_query_queries (client : Client) (now : Time) (l : List (User × Binding))
    (bot : Bot) :
    (l.foldl (queryBinding client now) bot).queries = bot.queries ++ l.map queryOf := by
  induction l generalizing bot with
  | nil => simp
  | cons e l ih => rw [List.foldl_cons, ih, queryBinding_queries]; simp

theorem foldl_query_sent (client : Client) (now : Time) (l : List (User × Binding))
    (bot : Bot) :
    (l.foldl (queryBinding client now) bot).sent
      = bot.sent ++ passAlerts client bot.queries.length l := by
  induction l generalizing bot with
  | nil => simp [passAlerts]
  | cons e l ih =>
    rw [List.foldl_cons, ih, queryBinding_sent, queryBinding_queries]
    simp [passAlerts, List.append_assoc]

theorem foldl_query_frame (client : Client) (now : Time) (l : List (User × Binding))
    (bot : Bot) :
    (l.foldl (queryBinding client now) bot).states = bot.states
    ∧ (l.foldl (queryBinding client now) bot).tempData = bot.tempData
    ∧ (l.foldl (queryBinding client now) bot).DB.users = bot.DB.users := by
  induction l generalizing bot with
  | nil => exact ⟨rfl, rfl, rfl⟩
  | cons e l ih =>
    rw [List.foldl_cons]
    obtain ⟨a1, a2, a3⟩ := ih (queryBinding client now bot e)
    obtain ⟨b1, b2, b3⟩ := queryBinding_frame client now bot e
    exact ⟨a1.trans b1, a2.trans b2, a3.trans b3⟩

theorem foldl_query_lookup_other (client : Client) (now : Time) (l : List (User × Binding))
    (bot : Bot) (id : Nat) (hl : ∀ e ∈ l, e.2.ID ≠ 0 ∧ id ≠ e.2.ID) :
    (l.foldl (queryBinding client now) bot).DB.bindingByID id = bot.DB.bindingByID id := by
  induction l generalizing bot with
  | nil => rfl
  | cons e l ih =>
    rw [List.foldl_cons, ih _ (fun x hx => hl x (List.mem_cons_of_mem _ hx))]
    have := hl e (List.mem_cons_self _ _)
    exact queryBinding_lookup_other client now bot e this.1 id this.2

theorem foldl_query_mem (client : Client) (now : Time) (l : List (User × Binding)) (bot : Bot)
    (hl : ∀ e ∈ l, e.2.ID ≠ 0) (hok : passSucceeds client bot.queries.length l = true)
    (x : Binding) (hx : x ∈ (l.foldl (queryBinding client now) bot).DB.bindings) :
    x.LastCheck = now ∨ (x ∈ bot.DB.bindings ∧ ∀ e ∈ l, x.ID ≠ e.2.ID) := by
  induction l generalizing bot with
  | nil => right; exact ⟨hx, fun e he => absurd he (List.not_mem_nil e)⟩
  | cons e l ih =>
    rw [List.foldl_cons] at hx
    simp only [passSucceeds, Bool.and_eq_true] at hok
    have hok2 : passSucceeds client (queryBinding client now bot e).queries.length l = true := by
      rw [queryBinding_queries]; simpa using hok.2
    rcases ih (queryBinding client now bot e) (fun y hy => hl y (List.mem_cons_of_mem _ hy))
        hok2 hx with h | ⟨hm, hne⟩
    · left; exact h
    · rcases queryBinding_mem client now bot e (hl e (List.mem_cons_self _ _)) x hm with
        h | ⟨hm2, hne2⟩
      · left; exact h
      · right
        refine ⟨hm2, ?_⟩
        intro y hy
        rcases List.mem_cons.mp hy with rfl | hy
        · apply hne2
          have h1 := hok.1
          split at h1
          · rename_i r rs heq; exact ⟨r, rs, heq⟩
          · cases h1
        · exact hne y hy

/-! ## The list of due bindings -/

theorem mem_dueList (now : Time) (db : Database) (e : User × Binding) :
    e ∈ dueList now db ↔
      e.1 ∈ db.users ∧ e.1.NotifyEnabled = true ∧ e.2 ∈ db.bindings ∧ e.2.UserID = e.1.ID
        ∧ notDue now e.1 e.2 = false := by
  obtain ⟨u, b⟩ := e
  unfold dueList Database.bindingsOf
  simp only [List.mem_flatMap, List.mem_filter, List.mem_map, Prod.mk.injEq, decide_eq_true_eq,
    Bool.not_eq_true']
  constructor
  · rintro ⟨u', ⟨hu, hen⟩, b', ⟨⟨hb, hub⟩, hdue⟩, rfl, rfl⟩
    exact ⟨hu, hen, hb, hub, hdue⟩
  · rintro ⟨hu, hen, hb, hub, hdue⟩
    exact ⟨u, ⟨hu, hen⟩, b, ⟨⟨hb, hub⟩, hdue⟩, rfl, rfl⟩

theorem dueList_keys_nodup (now : Time) (db : Database) (hk : WellKeyed db) :
    ((dueList now db).map (fun e => e.2.ID)).Nodup := by
  unfold dueList
  rw [List.map_flatMap, List.nodup_flatMap]
  constructor
  · intro u _
    rw [List.map_map]
    have hsub : (((db.bindingsOf u.ID).filter (fun b => !notDue now u b)).map
        ((fun e : User × Binding => e.2.ID) ∘ fun b => (u, b))).Sublist
        (db.bindings.map Binding.ID) := by
      have h1 : ((db.bindingsOf u.ID).filter (fun b => !notDue now u b)).Sublist db.bindings :=
        (List.filter_sublist _).trans (List.filter_sublist _)
      exact h1.map _
    exact hk.bindingKeys.sublist hsub
  · have hpw : db.users.Pairwise (fun a b => a.ID ≠ b.ID) := by
      have := hk.userKeys
      rwa [List.Nodup, List.pairwise_map] at this
    have hpw2 : (db.users.filter (fun u => u.NotifyEnabled)).Pairwise (fun a b => a.ID ≠ b.ID) :=
      hpw.sublist (List.filter_sublist _)
    refine hpw2.imp ?_
    intro u v huv
    simp only [Function.onFun]
    rw [List.disjoint_left]
    intro id h1 h2
    simp only [List.mem_map, List.mem_filter, Database.bindingsOf, decide_eq_true_eq,
      Prod.exists] at h1 h2
    obtain ⟨_, b1, ⟨b1', ⟨⟨hb1, hu1⟩, _⟩, heq1⟩, rfl⟩ := h1
    obtain ⟨_, b2, ⟨b2', ⟨⟨hb2, hu2⟩, _⟩, heq2⟩, hid⟩ := h2
    simp only [Prod.mk.injEq] at heq1 heq2
    obtain ⟨_, rfl⟩ := heq1
    obtain ⟨_, rfl⟩ := heq2
    have : b2' = b1' := List.inj_on_of_nodup_map hk.bindingKeys hb2 hb1 hid
    subst this
    exact huv (hu1.symm.trans hu2)

theorem dueList_keys_pos (now : Time) (db : Database) (hk : ∀ b ∈ db.bindings, b.ID ≠ 0) :
    ∀ e ∈ dueList now db, e.2.ID ≠ 0 := by
  intro e he
  exact hk e.2 ((mem_dueList now db e).mp he).2.2.1

theorem passAlerts_append (client : Client) (k : Nat) (l₁ l₂ : List (User × Binding)) :
    passAlerts client k (l₁ ++ l₂)
      = passAlerts client k l₁ ++ passAlerts client (k + l₁.length) l₂ := by
  induction l₁ generalizing k with
  | nil => simp [passAlerts]
  | cons e l ih =>
    have h := ih (k + 1)
    rw [show k + 1 + l.length = k + (l.length + 1) by omega] at h
    show alertsOf e.1 _ ++ passAlerts client (k + 1) (l ++ l₂)
      = (alertsOf e.1 _ ++ passAlerts client (k + 1) l)
        ++ passAlerts client (k + (l.length + 1)) l₂
    rw [h, List.append_assoc]

theorem Since_mono (now now' t : Int) (h : now ≤ now') : Since now t ≤ Since now' t := by
  simp only [Since, minInt64, maxInt64]
  omega

theorem notDue_mono (now now' : Time) (u : User) (b : Binding) (h : now ≤ now')
    (hd : notDue now u b = false) : notDue now' u b = false := by
  unfold notDue at *
  have := Since_mono now now' b.LastCheck h
  simp only [decide_eq_false_iff_not, not_lt] at *
  exact le_trans hd this

theorem notDue_fresh (now : Time) (u : User) (b : Binding) (hb : b.LastCheck = now)
    (h1 : 1 ≤ u.CheckInterval) (h2 : u.CheckInterval ≤ 153722867) : notDue now u b = true := by
  have hmod : (u.CheckInterval * 60000000000 + 2 ^ 63) % 2 ^ 64
      = u.CheckInterval * 60000000000 + 2 ^ 63 := by
    apply Int.emod_eq_of_lt <;> omega
  unfold notDue Since wrapInt64 Minute minInt64 maxInt64
  rw [hb, hmod]
  simp only [decide_eq_true_eq, sub_self]
  omega

/-! ## The monitoring pass: alerts, refresh, failures, repetition -/

theorem dueList_split (now : Time) (db : Database) (u : User) (b : Binding)
    (hu : u ∈ db.users) (hen : u.NotifyEnabled = true)
    (hb : b ∈ db.bindings) (hub : b.UserID = u.ID) (hdue : notDue now u b = false) :
    ∃ pre post, dueList now db = pre ++ (u, b) :: post :=
  List.append_of_mem ((mem_dueList now db (u, b)).mpr ⟨hu, hen, hb, hub, hdue⟩)

theorem lookup_of_mem (db : Database) (hk : (db.bindings.map Binding.ID).Nodup) (b : Binding)
    (hb : b ∈ db.bindings) : db.bindingByID b.ID = some b := by
  unfold Database.bindingByID
  cases h : db.bindings.find? (fun x => decide (x.ID = b.ID)) with
  | none =>
    have := List.find?_eq_none.mp h b hb
    simp at this
  | some x =>
    have hx : x ∈ db.bindings := List.mem_of_find?_eq_some h
    have hid : x.ID = b.ID := by simpa using List.find?_some h
    rw [List.inj_on_of_nodup_map hk hx hb hid]

theorem split_keys (now : Time) (db : Database) (hk : WellKeyed db) (u : User) (b : Binding)
    (pre post : List (User × Binding)) (hs : dueList now db = pre ++ (u, b) :: post) :
    (∀ e ∈ pre, e.2.ID ≠ 0 ∧ b.ID ≠ e.2.ID) ∧ (∀ e ∈ post, e.2.ID ≠ 0 ∧ b.ID ≠ e.2.ID)
      ∧ b.ID ≠ 0 := by
  have hpos := dueList_keys_pos now db hk.bindingKeysPos
  have hnd := dueList_keys_nodup now db hk
  rw [hs] at hpos hnd
  rw [List.map_append, List.map_cons] at hnd
  have hmid := List.nodup_middle.mp hnd
  rw [List.nodup_cons] at hmid
  have hnot := hmid.1
  simp only [List.mem_append, List.mem_map, not_or, not_exists, not_and] at hnot
  refine ⟨?_, ?_, ?_⟩
  · intro e he
    exact ⟨hpos e (by simp [he]), fun h => hnot.1 e he h.symm⟩
  · intro e he
    exact ⟨hpos e (by simp [he]), fun h => hnot.2 e he h.symm⟩
  · exact hpos (u, b) (by simp)

/-- C1. For an alert-enabled user `u` and a due binding `b` of `u`, the pass queries the provider
for `b` (after the due bindings `pre` that come earlier in the loops), and when that query
answers with a list of rooms the alerts of the pass are: the alerts for `pre`, then exactly one
alert to `u` for each returned room whose balance is below the threshold of `u`, in order, each
carrying the room label, the balance and the threshold, and none for the other rooms, then the
alerts for the due bindings `post` that come later. -/
theorem checkLowBalance_alerts (client : Client) (now : Time) (bot : Bot) (u : User)
    (b : Binding) (hu : u ∈ bot.DB.users) (hen : u.NotifyEnabled = true)
    (hb : b ∈ bot.DB.bindings) (hub : b.UserID = u.ID) (hdue : notDue now u b = false) :
    ∃ pre post, dueList now bot.DB = pre ++ (u, b) :: post ∧
      (CheckLowBalance client now bot).queries
        = bot.queries ++ pre.map queryOf ++ (b.Account, b.CustomerCode) :: post.map queryOf ∧
      ∀ rooms, client (bot.queries.length + pre.length) b.Account b.CustomerCode
          = Except.ok rooms →
        (CheckLowBalance client now bot).sent
          = bot.sent ++ passAlerts client bot.queries.length pre
            ++ (rooms.filter (fun r => r.Balance.lt u.NotifyThreshold)).map
                (fun r => Out.send u.ID
                  (Text.lowBalance (escapeMarkdownV2 r.RoomName) r.Balance u.NotifyThreshold)
                  true [])
            ++ passAlerts client (bot.queries.length + pre.length + 1) post := by
  obtain ⟨pre, post, hs⟩ := dueList_split now bot.DB u b hu hen hb hub hdue
  refine ⟨pre, post, hs, ?_, ?_⟩
  · rw [CheckLowBalance_eq, foldl_query_queries, hs]
    simp [queryOf, List.append_assoc]
  · intro rooms hq
    rw [CheckLowBalance_eq, foldl_query_sent, hs, passAlerts_append]
    simp only [passAlerts, hq, alertsOf, List.append_assoc]
    rfl

/-- Instance of C1 on the example data: a room at 3.0 against the threshold 10.0. -/
theorem checkLowBalance_alerts_witness :
    ∃ pre post, dueList sampleNow sampleBot.DB = pre ++ (sampleUser, sampleBinding) :: post ∧
      (CheckLowBalance lowClient sampleNow sampleBot).queries
        = sampleBot.queries ++ pre.map queryOf
          ++ (sampleBinding.Account, sampleBinding.CustomerCode) :: post.map queryOf ∧
      ∀ rooms, lowClient (sampleBot.queries.length + pre.length) sampleBinding.Account
          sampleBinding.CustomerCode = Except.ok rooms →
        (CheckLowBalance lowClient sampleNow sampleBot).sent
          = sampleBot.sent ++ passAlerts lowClient sampleBot.queries.length pre
            ++ (rooms.filter (fun r => r.Balance.lt sampleUser.NotifyThreshold)).map
                (fun r => Out.send sampleUser.ID
                  (Text.lowBalance (escapeMarkdownV2 r.RoomName) r.Balance
                    sampleUser.NotifyThreshold) true [])
            ++ passAlerts lowClient (sampleBot.queries.length + pre.length + 1) post :=
  checkLowBalance_alerts lowClient sampleNow sampleBot sampleUser sampleBinding
    (by decide) (by decide) (by decide) (by decide) (by decide)

/-- The pass on the example data with a room at 3.0: one alert, to user 7, with the label, the
balance 3.0 and the threshold 10.0; the stored binding is refreshed. -/
theorem sample_pass_one_alert :
    (CheckLowBalance lowClient sampleNow sampleBot).sent
      = [Out.send 7 (Text.lowBalance "A\\-101" (Float64.finite 3) (Float64.finite 10)) true []]
    ∧ (CheckLowBalance lowClient sampleNow sampleBot).DB.bindings
      = [⟨1, 7, "2021001", "1024", "A-101", Float64.finite 3, sampleNow⟩] := by
  decide

theorem pass_split (client : Client) (now : Time) (bot : Bot) (u : User) (b : Binding)
    (pre post : List (User × Binding)) (hs : dueList now bot.DB = pre ++ (u, b) :: post) :
    CheckLowBalance client now bot
      = post.foldl (queryBinding client now)
          (queryBinding client now (pre.foldl (queryBinding client now) bot) (u, b)) := by
  rw [CheckLowBalance_eq, hs, List.foldl_append, List.foldl_cons]

/-- C3 (amended). For an alert-enabled user `u` and a due binding `b` of `u` in a store with
proper primary keys, when the query the pass makes for `b` answers with a non-empty list of
rooms, the stored record of `b` after the pass is `b` with the room label and balance of the
last returned room and with the time of the pass as last-check timestamp, whatever the balances
are. -/
theorem checkLowBalance_refreshes (client : Client) (now : Time) (bot : Bot) (u : User)
    (b : Binding) (hk : WellKeyed bot.DB) (hu : u ∈ bot.DB.users) (hen : u.NotifyEnabled = true)
    (hb : b ∈ bot.DB.bindings) (hub : b.UserID = u.ID) (hdue : notDue now u b = false) :
    ∃ pre post, dueList now bot.DB = pre ++ (u, b) :: post ∧
      ∀ rooms last, client (bot.queries.length + pre.length) b.Account b.CustomerCode
          = Except.ok rooms → rooms.getLast? = some last →
        (CheckLowBalance client now bot).DB.bindingByID b.ID
          = some { b with RoomName := last.RoomName, LastBalance := last.Balance,
                          LastCheck := now } := by
  obtain ⟨pre, post, hs⟩ := dueList_split now bot.DB u b hu hen hb hub hdue
  refine ⟨pre, post, hs, ?_⟩
  intro rooms last hq hlast
  obtain ⟨_, hpost, hpos⟩ := split_keys now bot.DB hk u b pre post hs
  rw [pass_split client now bot u b pre post hs,
    foldl_query_lookup_other client now post _ b.ID hpost,
    queryBinding_lookup client now _ (u, b) hpos b.ID]
  have hlen : (pre.foldl (queryBinding client now) bot).queries.length
      = bot.queries.length + pre.length := by
    rw [foldl_query_queries]; simp
  dsimp only
  rw [hlen, hq]
  have hne : rooms ≠ [] := by
    intro h; rw [h] at hlast; cases hlast
  dsimp only
  rw [foldl_refresh_last now rooms b last hlast, if_pos ⟨rfl, hne⟩]
  rfl

/-- Instance of C3 on the example data. -/
theorem checkLowBalance_refreshes_witness :
    ∃ pre post, dueList sampleNow sampleBot.DB = pre ++ (sampleUser, sampleBinding) :: post ∧
      ∀ rooms last, lowClient (sampleBot.queries.length + pre.length) sampleBinding.Account
          sampleBinding.CustomerCode = Except.ok rooms → rooms.getLast? = some last →
        (CheckLowBalance lowClient sampleNow sampleBot).DB.bindingByID sampleBinding.ID
          = some { sampleBinding with RoomName := last.RoomName, LastBalance := last.Balance,
                                      LastCheck := sampleNow } :=
  checkLowBalance_refreshes lowClient sampleNow sampleBot sampleUser sampleBinding
    ⟨by decide, by decide, by decide, by decide⟩ (by decide) (by decide) (by decide) (by decide) (by decide)

/-- C3 as stated fails: the query for the due binding of an alert-enabled user succeeds with no
room, and the stored record keeps its old last-check timestamp. -/
theorem checkLowBalance_refreshes_counterexample :
    sampleUser ∈ sampleBot.DB.users ∧ sampleUser.NotifyEnabled = true
    ∧ sampleBinding ∈ sampleBot.DB.bindings ∧ sampleBinding.UserID = sampleUser.ID
    ∧ notDue sampleNow sampleUser sampleBinding = false
    ∧ emptyClient 0 sampleBinding.Account sampleBinding.CustomerCode = Except.ok []
    ∧ (CheckLowBalance emptyClient sampleNow sampleBot).queries = [("2021001", "1024")]
    ∧ (CheckLowBalance emptyClient sampleNow sampleBot).DB.bindingByID 1 = some sampleBinding
    ∧ sampleBinding.LastCheck ≠ sampleNow :=
  ⟨by decide, by decide, by decide, by decide, by decide, rfl, by decide, by decide, by decide⟩

/-- C4. For an alert-enabled user `u` and a due binding `b` of `u` in a store with proper primary
keys, when the query the pass makes for `b` fails: the stored record of `b` after the pass is
`b` itself, the pass sends no alert for `b` (its alerts are those of the earlier and of the later
due bindings), every due binding is queried, the later ones included, and `b` is again a due
binding of `u` for a pass at any time not earlier than this one. -/
theorem checkLowBalance_failure (client : Client) (now : Time) (bot : Bot) (u : User)
    (b : Binding) (hk : WellKeyed bot.DB) (hu : u ∈ bot.DB.users) (hen : u.NotifyEnabled = true)
    (hb : b ∈ bot.DB.bindings) (hub : b.UserID = u.ID) (hdue : notDue now u b = false) :
    ∃ pre post, dueList now bot.DB = pre ++ (u, b) :: post ∧
      ∀ err, client (bot.queries.length + pre.length) b.Account b.CustomerCode
          = Except.error err →
        (CheckLowBalance client now bot).DB.bindingByID b.ID = some b
        ∧ (CheckLowBalance client now bot).sent
            = bot.sent ++ passAlerts client bot.queries.length pre
              ++ passAlerts client (bot.queries.length + pre.length + 1) post
        ∧ (CheckLowBalance client now bot).queries
            = bot.queries ++ pre.map queryOf ++ (b.Account, b.CustomerCode) :: post.map queryOf
        ∧ ∀ now', now ≤ now' → (u, b) ∈ dueList now' (CheckLowBalance client now bot).DB := by
  obtain ⟨pre, post, hs⟩ := dueList_split now bot.DB u b hu hen hb hub hdue
  refine ⟨pre, post, hs, ?_⟩
  intro err hq
  obtain ⟨hpre, hpost, hpos⟩ := split_keys now bot.DB hk u b pre post hs
  have hlen : (pre.foldl (queryBinding client now) bot).queries.length
      = bot.queries.length + pre.length := by
    rw [foldl_query_queries]; simp
  have hlook : (CheckLowBalance client now bot).DB.bindingByID b.ID = some b := by
    rw [pass_split client now bot u b pre post hs,
      foldl_query_lookup_other client now post _ b.ID hpost,
      queryBinding_lookup client now _ (u, b) hpos b.ID]
    dsimp only
    rw [hlen, hq]
    dsimp only
    rw [foldl_query_lookup_other client now pre _ b.ID hpre]
    exact lookup_of_mem bot.DB hk.bindingKeys b hb
  refine ⟨hlook, ?_, ?_, ?_⟩
  · rw [CheckLowBalance_eq, foldl_query_sent, hs, passAlerts_append]
    simp [passAlerts, hq, alertsOf, List.append_assoc]
  · rw [CheckLowBalance_eq, foldl_query_queries, hs]
    simp [queryOf, List.append_assoc]
  · intro now' hle
    rw [mem_dueList]
    refine ⟨?_, hen, ?_, hub, notDue_mono now now' u b hle hdue⟩
    · rw [CheckLowBalance_eq, (foldl_query_frame client now _ bot).2.2]
      exact hu
    · exact List.mem_of_find?_eq_some hlook

/-- Instance of C4 on the example data, with an unreachable provider. -/
theorem checkLowBalance_failure_witness :
    ∃ pre post, dueList sampleNow sampleBot.DB = pre ++ (sampleUser, sampleBinding) :: post ∧
      ∀ err, downClient (sampleBot.queries.length + pre.length) sampleBinding.Account
          sampleBinding.CustomerCode = Except.error err →
        (CheckLowBalance downClient sampleNow sampleBot).DB.bindingByID sampleBinding.ID
          = some sampleBinding
        ∧ (CheckLowBalance downClient sampleNow sampleBot).sent
            = sampleBot.sent ++ passAlerts downClient sampleBot.queries.length pre
              ++ passAlerts downClient (sampleBot.queries.length + pre.length + 1) post
        ∧ (CheckLowBalance downClient sampleNow sampleBot).queries
            = sampleBot.queries ++ pre.map queryOf
              ++ (sampleBinding.Account, sampleBinding.CustomerCode) :: post.map queryOf
        ∧ ∀ now', sampleNow ≤ now' →
            (sampleUser, sampleBinding)
              ∈ dueList now' (CheckLowBalance downClient sampleNow sampleBot).DB :=
  checkLowBalance_failure downClient sampleNow sampleBot sampleUser sampleBinding
    ⟨by decide, by decide, by decide, by decide⟩ (by decide) (by decide) (by decide) (by decide) (by decide)

theorem dueList_after_pass (client : Client) (now : Time) (bot : Bot)
    (hk : ∀ b ∈ bot.DB.bindings, b.ID ≠ 0)
    (hint : ∀ u ∈ bot.DB.users, 1 ≤ u.CheckInterval ∧ u.CheckInterval ≤ 153722867)
    (hok : passSucceeds client bot.queries.length (dueList now bot.DB) = true) :
    dueList now (CheckLowBalance client now bot).DB = [] := by
  rw [List.eq_nil_iff_forall_not_mem]
  intro e he
  rw [mem_dueList] at he
  obtain ⟨heu, hen, heb, hub, hdue⟩ := he
  rw [CheckLowBalance_eq] at heu heb
  rw [(foldl_query_frame client now _ bot).2.2] at heu
  rcases foldl_query_mem client now (dueList now bot.DB) bot
      (dueList_keys_pos now bot.DB hk) hok e.2 heb with hfresh | ⟨hmem, hne⟩
  · have := notDue_fresh now e.1 e.2 hfresh (hint e.1 heu).1 (hint e.1 heu).2
    rw [this] at hdue
    cases hdue
  · have hin : e ∈ dueList now bot.DB := (mem_dueList now bot.DB e).mpr ⟨heu, hen, hmem, hub, hdue⟩
    exact hne e hin rfl

/-- C5 (amended). When every check interval is between 1 and 153722867 minutes, stored bindings
have non-zero keys, and every provider query of a pass answers with at least one room, then a
second pass at the same instant finds no binding due and makes no provider query: after both
passes the provider has been queried once for each binding that was due at the first pass. -/
theorem checkLowBalance_twice (client : Client) (now : Time) (bot : Bot)
    (hk : ∀ b ∈ bot.DB.bindings, b.ID ≠ 0)
    (hint : ∀ u ∈ bot.DB.users, 1 ≤ u.CheckInterval ∧ u.CheckInterval ≤ 153722867)
    (hok : passSucceeds client bot.queries.length (dueList now bot.DB) = true) :
    dueList now (CheckLowBalance client now bot).DB = []
    ∧ (CheckLowBalance client now (CheckLowBalance client now bot)).queries
        = (CheckLowBalance client now bot).queries
    ∧ (CheckLowBalance client now (CheckLowBalance client now bot)).queries
        = bot.queries ++ (dueList now bot.DB).map queryOf := by
  have h1 := dueList_after_pass client now bot hk hint hok
  have h2 : (CheckLowBalance client now (CheckLowBalance client now bot)).queries
      = (CheckLowBalance client now bot).queries := by
    rw [CheckLowBalance_eq client now (CheckLowBalance client now bot), h1]
    rfl
  refine ⟨h1, h2, ?_⟩
  rw [h2, CheckLowBalance_eq, foldl_query_queries]

/-- Instance of C5 (amended) on the example data, the provider reporting one room. -/
theorem checkLowBalance_twice_witness :
    dueList sampleNow (CheckLowBalance lowClient sampleNow sampleBot).DB = []
    ∧ (CheckLowBalance lowClient sampleNow (CheckLowBalance lowClient sampleNow sampleBot)).queries
        = (CheckLowBalance lowClient sampleNow sampleBot).queries
    ∧ (CheckLowBalance lowClient sampleNow (CheckLowBalance lowClient sampleNow sampleBot)).queries
        = sampleBot.queries ++ (dueList sampleNow sampleBot.DB).map queryOf :=
  checkLowBalance_twice lowClient sampleNow sampleBot (by decide) (by decide) (by decide)

/-- C5 as stated fails.  With every check interval at least one minute and no time elapsed, the
second pass queries the provider again for the same binding when the first query failed, when
it succeeded without any room, and when the interval is 153722868 minutes. -/
theorem checkLowBalance_twice_counterexample :
    (∀ u ∈ sampleBot.DB.users, 1 ≤ u.CheckInterval)
    ∧ (CheckLowBalance downClient sampleNow sampleBot).queries = [("2021001", "1024")]
    ∧ (CheckLowBalance downClient sampleNow (CheckLowBalance downClient sampleNow sampleBot)).queries
        = [("2021001", "1024"), ("2021001", "1024")]
    ∧ (CheckLowBalance emptyClient sampleNow
        (CheckLowBalance emptyClient sampleNow sampleBot)).queries
        = [("2021001", "1024"), ("2021001", "1024")]
    ∧ (∀ u ∈ longIntervalBot.DB.users, 1 ≤ u.CheckInterval)
    ∧ (CheckLowBalance lowClient sampleNow
        (CheckLowBalance lowClient sampleNow longIntervalBot)).queries
        = [("2021001", "1024"), ("2021001", "1024")] := by
  decide

/-! ## The conversation state store -/

theorem getState_setState (bot : Bot) (u : Int) (s : Int) : getState (setState bot u s) u = s := by
  simp [getState, setState]

theorem tempData_setState_none (bot : Bot) (u : Int) :
    (setState bot u StateNone).tempData u = none := by
  simp [setState]

theorem getState_emit (bot : Bot) (o : Out) (u : Int) : getState (bot.emit o) u = getState bot u :=
  rfl

theorem hasBinding_of_exists (db : Database) (userID : Int) (account code : String)
    (h : ∃ b ∈ db.bindings, b.UserID = userID ∧ b.Account = account ∧ b.CustomerCode = code) :
    db.hasBinding userID account code = true := by
  obtain ⟨b, hb, h1, h2, h3⟩ := h
  unfold Database.hasBinding
  rw [List.any_eq_true]
  exact ⟨b, hb, by simp [h1, h2, h3]⟩

/-- C2. In a store where no two bindings share (user id, account, customer code), when the user
is awaiting the customer code and a binding with (user, scratch account, entered code) exists,
`handleText` leaves the store as it was, whatever the provider answers, makes the user idle, and
the store still has no two bindings sharing that tuple. -/
theorem handleText_duplicate (client : Client) (ParseFloat : String → Option Float64)
    (now : Time) (c : Context) (bot : Bot) (huniq : UniqueTuples bot.DB)
    (hstate : getState bot c.Sender = StateAddAccount_WaitCode)
    (hdup : ∃ b ∈ bot.DB.bindings, b.UserID = c.Sender
      ∧ b.Account = getTempData bot c.Sender "account" ∧ b.CustomerCode = c.Text) :
    (handleText client ParseFloat now c bot).DB = bot.DB
    ∧ getState (handleText client ParseFloat now c bot) c.Sender = StateNone
    ∧ UniqueTuples (handleText client ParseFloat now c bot).DB := by
  have hdb : (handleText client ParseFloat now c bot).DB = bot.DB
      ∧ getState (handleText client ParseFloat now c bot) c.Sender = StateNone := by
    unfold handleText
    simp only [hstate, StateAddAccount_WaitCode, StateAddAccount_WaitAccount]
    simp only [show ¬ ((2 : Int) = 1) by decide, if_false, if_true]
    unfold GetBalance
    cases hq : client (bot.emit (Out.send c.Recipient Text.verifying false [])).queries.length
        (getTempData bot c.Sender "account") c.Text with
    | error err => exact ⟨rfl, by simp [getState, setState, Bot.emit, StateNone]⟩
    | ok rooms =>
      cases rooms with
      | nil => exact ⟨rfl, by simp [getState, setState, Bot.emit, StateNone]⟩
      | cons r rs =>
        have hh := hasBinding_of_exists bot.DB c.Sender _ _ hdup
        simp only [Bot.emit, hh, if_true]
        exact ⟨rfl, by simp [getState, setState, StateNone]⟩
  exact ⟨hdb.1, hdb.2, by rw [hdb.1]; exact huniq⟩

/-- Instance of C2: user 7 sends the customer code of the binding the store already holds. -/
theorem handleText_duplicate_witness :
    (handleText lowClient sampleParseFloat sampleNow (textFrom7 "1024") awaitingCodeBot).DB
      = awaitingCodeBot.DB
    ∧ getState (handleText lowClient sampleParseFloat sampleNow (textFrom7 "1024") awaitingCodeBot)
        (textFrom7 "1024").Sender = StateNone
    ∧ UniqueTuples
        (handleText lowClient sampleParseFloat sampleNow (textFrom7 "1024") awaitingCodeBot).DB :=
  handleText_duplicate lowClient sampleParseFloat sampleNow (textFrom7 "1024") awaitingCodeBot
    (by unfold UniqueTuples; decide) (by decide)
    ⟨sampleBinding, by decide, by decide, by decide, by decide⟩

/-! ## The tuple invariant over every text step -/

theorem createUser_bindings (db : Database) (now : Time) (u : User) :
    (db.createUser now u).bindings = db.bindings := by
  unfold Database.createUser
  dsimp only
  split
  · rfl
  · split <;> rfl

theorem saveUser_bindings (db : Database) (now : Time) (u : User) :
    (db.saveUser now u).bindings = db.bindings := by
  unfold Database.saveUser
  split
  · exact createUser_bindings db now u
  · dsimp only
    split
    · rfl
    · exact createUser_bindings db now u

theorem handleSettings_bindings (now : Time) (c : Context) (bot : Bot) :
    (handleSettings now c bot).DB.bindings = bot.DB.bindings := by
  unfold handleSettings
  dsimp only
  split
  · exact createUser_bindings _ now _
  · rfl

theorem hasBinding_false (db : Database) (userID : Int) (account code : String)
    (h : db.hasBinding userID account code = false) :
    ∀ b ∈ db.bindings, ¬ (b.UserID = userID ∧ b.Account = account ∧ b.CustomerCode = code) := by
  intro b hb hh
  have := hasBinding_of_exists db userID account code ⟨b, hb, hh⟩
  rw [h] at this
  cases this

/-- Every text step keeps the tuples (user id, account, customer code) of the bindings
pairwise distinct, whatever the state of the sender, the text and the answer of the provider. -/
theorem handleText_keeps_unique (client : Client) (ParseFloat : String → Option Float64)
    (now : Time) (c : Context) (bot : Bot) (huniq : UniqueTuples bot.DB) :
    UniqueTuples (handleText client ParseFloat now c bot).DB := by
  by_cases h1 : getState bot c.Sender = StateAddAccount_WaitAccount
  · unfold handleText
    simp only [h1, if_true]
    exact huniq
  by_cases h2 : getState bot c.Sender = StateAddAccount_WaitCode
  · unfold handleText
    simp only [h2, StateAddAccount_WaitCode, StateAddAccount_WaitAccount]
    simp only [show ¬ ((2 : Int) = 1) by decide, if_false, if_true]
    unfold GetBalance
    cases hq : client (bot.emit (Out.send c.Recipient Text.verifying false [])).queries.length
        (getTempData bot c.Sender "account") c.Text with
    | error err => exact huniq
    | ok rooms =>
      cases rooms with
      | nil => exact huniq
      | cons room0 rest =>
        dsimp only
        by_cases hh : bot.DB.hasBinding c.Sender (getTempData bot c.Sender "account") c.Text = true
        · simp only [Bot.emit, hh, if_true]
          exact huniq
        · have hfalse : bot.DB.hasBinding c.Sender (getTempData bot c.Sender "account") c.Text
              = false := by simpa using hh
          have hall := hasBinding_false bot.DB _ _ _ hfalse
          simp only [Bot.emit, hfalse]
          unfold UniqueTuples
          show List.Pairwise _ (bot.DB.createBinding _).1.bindings
          unfold Database.createBinding
          simp only [if_true]
          rw [List.pairwise_append]
          refine ⟨huniq, List.pairwise_singleton _ _, ?_⟩
          intro a ha b hb
          rw [List.mem_singleton] at hb
          subst hb
          exact hall a ha
  by_cases h3 : getState bot c.Sender = StateSettings_WaitThreshold
  · unfold handleText
    simp only [h3, StateSettings_WaitThreshold, StateAddAccount_WaitCode,
      StateAddAccount_WaitAccount]
    simp only [show ¬ ((3 : Int) = 1) by decide, show ¬ ((3 : Int) = 2) by decide, if_false,
      if_true]
    cases ParseFloat c.Text with
    | none => exact huniq
    | some v =>
      unfold UniqueTuples
      dsimp only
      rw [handleSettings_bindings]
      show List.Pairwise _ (bot.DB.saveUser now _).bindings
      rw [saveUser_bindings]
      exact huniq
  by_cases h4 : getState bot c.Sender = StateSettings_WaitInterval
  · unfold handleText
    simp only [h4, StateSettings_WaitInterval, StateSettings_WaitThreshold,
      StateAddAccount_WaitCode, StateAddAccount_WaitAccount]
    simp only [show ¬ ((4 : Int) = 1) by decide, show ¬ ((4 : Int) = 2) by decide,
      show ¬ ((4 : Int) = 3) by decide, if_false, if_true]
    cases Atoi c.Text with
    | none => exact huniq
    | some v =>
      dsimp only
      split
      · exact huniq
      · unfold UniqueTuples
        rw [handleSettings_bindings]
        show List.Pairwise _ (bot.DB.saveUser now _).bindings
        rw [saveUser_bindings]
        exact huniq
  · unfold handleText
    simp only [h1, h2, h3, h4, if_false]
    exact huniq

/-- Binding the same account twice, evaluated: from a store without bindings the add-account
workflow creates one binding seeded with the first room; the same workflow repeated answers
"already bound" and adds nothing. -/
theorem sample_bind_twice :
    (addAccountFlow noBindingBot).DB.bindings
      = [⟨1, 7, "2021001", "1024", "A-101", Float64.finite 3, sampleNow⟩]
    ∧ (addAccountFlow (addAccountFlow noBindingBot)).DB.bindings
      = [⟨1, 7, "2021001", "1024", "A-101", Float64.finite 3, sampleNow⟩]
    ∧ (addAccountFlow (addAccountFlow noBindingBot)).sent.getLast?
      = some (Out.send 7 Text.alreadyBound false [])
    ∧ getState (addAccountFlow (addAccountFlow noBindingBot)) 7 = StateNone := by
  decide


/-! ## Settings: threshold, interval, alert switch -/

theorem firstUser_mem (db : Database) (id : Int) (user : User)
    (h : db.firstUser id = some user) : user ∈ db.users ∧ user.ID = id := by
  unfold Database.firstUser at h
  exact ⟨List.mem_of_find?_eq_some h, by simpa using List.find?_some h⟩

theorem find_replace_user (rs : List User) (row : User) (hex : ∃ x ∈ rs, x.ID = row.ID) :
    (rs.map (fun r => if r.ID = row.ID then row else r)).find? (fun x => decide (x.ID = row.ID))
      = some row := by
  induction rs with
  | nil => simp at hex
  | cons r rs ih =>
    by_cases hr : r.ID = row.ID
    · simp [List.find?_cons, hr]
    · have hex2 : ∃ x ∈ rs, x.ID = row.ID := by
        obtain ⟨x, hx, hxb⟩ := hex
        rcases List.mem_cons.mp hx with h | h
        · exact absurd (h ▸ hxb) hr
        · exact ⟨x, h, hxb⟩
      simp only [List.map_cons, hr, if_false, List.find?_cons, decide_False]
      exact ih hex2

/-- Saving a changed copy `u` of a stored user with a non-zero key: the tables keep their
shape, the row with that key becomes `u` stamped with the time of the write. -/
theorem saveUser_stored (db : Database) (now : Time) (u : User) (hid : u.ID ≠ 0)
    (hex : ∃ x ∈ db.users, x.ID = u.ID) :
    (db.saveUser now u).firstUser u.ID = some { u with UpdatedAt := now }
    ∧ (db.saveUser now u).bindings = db.bindings
    ∧ (db.saveUser now u).users
        = db.users.map (fun r => if r.ID = u.ID then { u with UpdatedAt := now } else r) := by
  have hany : db.users.any (fun r => decide (r.ID = u.ID)) = true := by
    rw [List.any_eq_true]
    obtain ⟨x, hx, hxu⟩ := hex
    exact ⟨x, hx, by simp [hxu]⟩
  have heq : db.saveUser now u
      = { db with
          users := List.map (fun r => if r.ID = u.ID then { u with UpdatedAt := now } else r)
            db.users } := by
    unfold Database.saveUser
    simp only [hid, if_false, hany, if_true]
  rw [heq]
  refine ⟨?_, rfl, rfl⟩
  unfold Database.firstUser
  exact find_replace_user db.users { u with UpdatedAt := now } hex

theorem handleSettings_stored (now : Time) (c : Context) (bot : Bot) (user : User)
    (h : bot.DB.firstUser c.Sender = some user) :
    (handleSettings now c bot).DB = bot.DB
    ∧ getState (handleSettings now c bot) c.Sender = StateNone
    ∧ (handleSettings now c bot).tempData c.Sender = none := by
  unfold handleSettings
  have h2 : (setState bot c.Sender StateNone).DB.firstUser c.Sender = some user := h
  simp only [h2]
  refine ⟨rfl, ?_, ?_⟩
  · simp [getState, setState, Bot.emit, StateNone]
  · simp [setState, Bot.emit]

theorem loadUser_stored (db : Database) (id : Int) (user : User)
    (h : db.firstUser id = some user) : loadUser db id = user := by
  simp [loadUser, h]

/-- What `handleText` does after a settings input was accepted: save the changed copy `u` of
the stored record of the sender, make the sender idle, confirm, show the settings. -/
theorem settings_saved (now : Time) (c : Context) (bot : Bot) (user u : User) (o : Out)
    (hkey : ∀ x ∈ bot.DB.users, x.ID ≠ 0) (hrec : bot.DB.firstUser c.Sender = some user)
    (hu : u.ID = user.ID) :
    (handleSettings now c
        ((setState { bot with DB := bot.DB.saveUser now u } c.Sender StateNone).emit o)).DB.firstUser
          c.Sender = some { u with UpdatedAt := now }
    ∧ getState (handleSettings now c
        ((setState { bot with DB := bot.DB.saveUser now u } c.Sender StateNone).emit o))
          c.Sender = StateNone
    ∧ (handleSettings now c
        ((setState { bot with DB := bot.DB.saveUser now u } c.Sender StateNone).emit o)).tempData
          c.Sender = none
    ∧ (handleSettings now c
        ((setState { bot with DB := bot.DB.saveUser now u } c.Sender StateNone).emit o)).DB.bindings
          = bot.DB.bindings
    ∧ (handleSettings now c
        ((setState { bot with DB := bot.DB.saveUser now u } c.Sender StateNone).emit o)).DB.users
          = bot.DB.users.map (fun r => if r.ID = u.ID then { u with UpdatedAt := now } else r) := by
  obtain ⟨hmem, hid⟩ := firstUser_mem bot.DB c.Sender user hrec
  have hne : u.ID ≠ 0 := by rw [hu]; exact hkey user hmem
  have huid : u.ID = c.Sender := hu.trans hid
  obtain ⟨s1, s2, s3⟩ := saveUser_stored bot.DB now u hne ⟨user, hmem, hu.symm⟩
  have s1' : (bot.DB.saveUser now u).firstUser c.Sender = some { u with UpdatedAt := now } := by
    rw [← huid]; exact s1
  have hrec2 : ((setState { bot with DB := bot.DB.saveUser now u } c.Sender StateNone).emit
      o).DB.firstUser c.Sender = some { u with UpdatedAt := now } := s1'
  obtain ⟨t1, t2, t3⟩ := handleSettings_stored now c _ _ hrec2
  refine ⟨?_, t2, t3, ?_, ?_⟩
  · rw [t1]; exact s1'
  · rw [t1]; exact s2
  · rw [t1]; exact s3

/-- The threshold step where the sender has a stored record.  For a user who is awaiting a new
threshold and has a stored record (stored
users having non-zero keys): when the text does not parse, `handleText` leaves the state of the
user, the scratch data and the whole store as they were; when it parses to `v`, the stored
record of the user afterwards is the old record with threshold `v` (alert flag and check
interval as before, update time set), no binding changes, and the user is idle. -/
theorem handleText_threshold (client : Client) (ParseFloat : String → Option Float64)
    (now : Time) (c : Context) (bot : Bot) (user : User)
    (hkey : ∀ x ∈ bot.DB.users, x.ID ≠ 0)
    (hstate : getState bot c.Sender = StateSettings_WaitThreshold)
    (hrec : bot.DB.firstUser c.Sender = some user) :
    (ParseFloat c.Text = none →
      getState (handleText client ParseFloat now c bot) c.Sender = StateSettings_WaitThreshold
      ∧ (handleText client ParseFloat now c bot).tempData = bot.tempData
      ∧ (handleText client ParseFloat now c bot).DB = bot.DB)
    ∧ (∀ v, ParseFloat c.Text = some v →
      (handleText client ParseFloat now c bot).DB.firstUser c.Sender
        = some { user with NotifyThreshold := v, UpdatedAt := now }
      ∧ (handleText client ParseFloat now c bot).DB.bindings = bot.DB.bindings
      ∧ getState (handleText client ParseFloat now c bot) c.Sender = StateNone) := by
  have hred : handleText client ParseFloat now c bot
      = match ParseFloat c.Text with
        | none => bot.emit (Out.send c.Recipient Text.badNumber false [])
        | some val =>
          handleSettings now c
            ((setState
              { bot with
                DB := bot.DB.saveUser now ({ loadUser bot.DB c.Sender with NotifyThreshold := val }) }
              c.Sender StateNone).emit
            (Out.send c.Recipient Text.thresholdUpdated false [])) := by
    unfold handleText
    simp only [hstate, StateSettings_WaitThreshold, StateAddAccount_WaitCode,
      StateAddAccount_WaitAccount]
    simp only [show ¬ ((3 : Int) = 1) by decide, show ¬ ((3 : Int) = 2) by decide, if_false,
      if_true]
  rw [hred]
  constructor
  · intro hp
    rw [hp]
    exact ⟨hstate, rfl, rfl⟩
  · intro v hp
    rw [hp, loadUser_stored bot.DB c.Sender user hrec]
    obtain ⟨h1, h2, _, h4, _⟩ := settings_saved now c bot user
      { user with NotifyThreshold := v } (Out.send c.Recipient Text.thresholdUpdated false [])
      hkey hrec rfl
    exact ⟨h1, h4, h2⟩

/-- Instance on the example data: user 7, awaiting a new threshold, sends a text. -/
theorem handleText_threshold_witness :
    (sampleParseFloat (textFrom7 "7.5").Text = none →
      getState (handleText lowClient sampleParseFloat sampleNow (textFrom7 "7.5")
        awaitingThresholdBot) (textFrom7 "7.5").Sender = StateSettings_WaitThreshold
      ∧ (handleText lowClient sampleParseFloat sampleNow (textFrom7 "7.5")
          awaitingThresholdBot).tempData = awaitingThresholdBot.tempData
      ∧ (handleText lowClient sampleParseFloat sampleNow (textFrom7 "7.5")
          awaitingThresholdBot).DB = awaitingThresholdBot.DB)
    ∧ (∀ v, sampleParseFloat (textFrom7 "7.5").Text = some v →
      (handleText lowClient sampleParseFloat sampleNow (textFrom7 "7.5")
          awaitingThresholdBot).DB.firstUser (textFrom7 "7.5").Sender
        = some { sampleUser with NotifyThreshold := v, UpdatedAt := sampleNow }
      ∧ (handleText lowClient sampleParseFloat sampleNow (textFrom7 "7.5")
          awaitingThresholdBot).DB.bindings = awaitingThresholdBot.DB.bindings
      ∧ getState (handleText lowClient sampleParseFloat sampleNow (textFrom7 "7.5")
          awaitingThresholdBot) (textFrom7 "7.5").Sender = StateNone) :=
  handleText_threshold lowClient sampleParseFloat sampleNow (textFrom7 "7.5")
    awaitingThresholdBot sampleUser (by decide) (by decide) (by decide)

/-- Threshold inputs evaluated: "abc" changes neither state nor store, "7.5" stores the
threshold 7.5 and makes the user idle. -/
theorem sample_threshold_inputs :
    getState (handleText lowClient sampleParseFloat sampleNow (textFrom7 "abc")
        awaitingThresholdBot) 7 = StateSettings_WaitThreshold
    ∧ (handleText lowClient sampleParseFloat sampleNow (textFrom7 "abc") awaitingThresholdBot).DB
        = awaitingThresholdBot.DB
    ∧ (handleText lowClient sampleParseFloat sampleNow (textFrom7 "7.5")
        awaitingThresholdBot).DB.users
        = [⟨7, 0, sampleNow, Float64.finite sevenAndHalf, true, 60⟩]
    ∧ getState (handleText lowClient sampleParseFloat sampleNow (textFrom7 "7.5")
        awaitingThresholdBot) 7 = StateNone := by
  decide

/-- C6, the code at the failing input.  User 42 has no stored record and is awaiting a new
threshold; the text parses to 7.5.  `handleText` does not look at the error of `DB.First`, as
`handleSettings` and `handleToggleAlert` do: it saves a zero-keyed record, which the store
inserts under the key 1, confirms the update, and the settings view then creates the record of
user 42 with the default threshold 10.0.  The stored record of user 42 does not have the
threshold 7.5. -/
theorem handleText_threshold_no_record :
    strangerThresholdBot.DB.firstUser 42 = none
    ∧ getState strangerThresholdBot 42 = StateSettings_WaitThreshold
    ∧ sampleParseFloat "7.5" = some (Float64.finite sevenAndHalf)
    ∧ (handleText lowClient sampleParseFloat sampleNow (textFrom42 "7.5")
        strangerThresholdBot).DB.firstUser 42
        = some ⟨42, sampleNow, sampleNow, Float64.finite 10, false, 60⟩
    ∧ (handleText lowClient sampleParseFloat sampleNow (textFrom42 "7.5")
        strangerThresholdBot).DB.users
        = [⟨1, sampleNow, sampleNow, Float64.finite sevenAndHalf, false, 60⟩,
           ⟨42, sampleNow, sampleNow, Float64.finite 10, false, 60⟩]
    ∧ (handleText lowClient sampleParseFloat sampleNow (textFrom42 "7.5")
        strangerThresholdBot).sent
        = [Out.send 42 Text.thresholdUpdated false [], Out.send 42 Text.initUser false []]
    ∧ getState (handleText lowClient sampleParseFloat sampleNow (textFrom42 "7.5")
        strangerThresholdBot) 42 = StateNone := by
  decide

/-- The interval step where the sender has a stored record.  For a user who is awaiting a new
interval and has a stored record (stored
users having non-zero keys), `handleText` accepts the text exactly when `Atoi` yields an integer
`n` with `1 ≤ n`.  On rejection the state of the user, the scratch data and the whole store are
as before.  On acceptance the stored record of the user is the old record with check interval
`n` (update time set), no binding changes, the user is idle, and if every stored check interval
was at least 1 it still is. -/
theorem handleText_interval (client : Client) (ParseFloat : String → Option Float64)
    (now : Time) (c : Context) (bot : Bot) (user : User)
    (hkey : ∀ x ∈ bot.DB.users, x.ID ≠ 0)
    (hstate : getState bot c.Sender = StateSettings_WaitInterval)
    (hrec : bot.DB.firstUser c.Sender = some user) :
    ((¬ ∃ n, Atoi c.Text = some n ∧ 1 ≤ n) →
      getState (handleText client ParseFloat now c bot) c.Sender = StateSettings_WaitInterval
      ∧ (handleText client ParseFloat now c bot).tempData = bot.tempData
      ∧ (handleText client ParseFloat now c bot).DB = bot.DB)
    ∧ (∀ n, Atoi c.Text = some n → 1 ≤ n →
      (handleText client ParseFloat now c bot).DB.firstUser c.Sender
        = some { user with CheckInterval := n, UpdatedAt := now }
      ∧ (handleText client ParseFloat now c bot).DB.bindings = bot.DB.bindings
      ∧ getState (handleText client ParseFloat now c bot) c.Sender = StateNone
      ∧ ((∀ x ∈ bot.DB.users, 1 ≤ x.CheckInterval) →
          ∀ x ∈ (handleText client ParseFloat now c bot).DB.users, 1 ≤ x.CheckInterval)) := by
  have hred : handleText client ParseFloat now c bot
      = match Atoi c.Text with
        | none => bot.emit (Out.send c.Recipient Text.badInterval false [])
        | some val =>
          if val < 1 then bot.emit (Out.send c.Recipient Text.badInterval false [])
          else
            handleSettings now c
              ((setState
                { bot with
                  DB := bot.DB.saveUser now ({ loadUser bot.DB c.Sender with CheckInterval := val }) }
                c.Sender StateNone).emit
              (Out.send c.Recipient Text.intervalUpdated false [])) := by
    unfold handleText
    simp only [hstate, StateSettings_WaitInterval, StateSettings_WaitThreshold,
      StateAddAccount_WaitCode, StateAddAccount_WaitAccount]
    simp only [show ¬ ((4 : Int) = 1) by decide, show ¬ ((4 : Int) = 2) by decide,
      show ¬ ((4 : Int) = 3) by decide, if_false, if_true]
  rw [hred]
  constructor
  · intro hrej
    cases hp : Atoi c.Text with
    | none => exact ⟨hstate, rfl, rfl⟩
    | some val =>
      have hlt : val < 1 := by
        by_contra hge
        exact hrej ⟨val, hp, not_lt.mp hge⟩
      simp only [hlt, if_true]
      exact ⟨hstate, rfl, rfl⟩
  · intro n hp hn
    rw [hp]
    simp only [not_lt.mpr hn, if_false]
    rw [loadUser_stored bot.DB c.Sender user hrec]
    obtain ⟨h1, h2, _, h4, h5⟩ := settings_saved now c bot user
      { user with CheckInterval := n } (Out.send c.Recipient Text.intervalUpdated false [])
      hkey hrec rfl
    refine ⟨h1, h4, h2, ?_⟩
    intro hall x hx
    rw [h5, List.mem_map] at hx
    obtain ⟨r, hr, hrx⟩ := hx
    by_cases hid : r.ID = user.ID
    · simp only [hid, if_true] at hrx
      rw [← hrx]
      exact hn
    · simp only [hid, if_false] at hrx
      rw [← hrx]
      exact hall r hr

/-- Instance on the example data: user 7, awaiting a new interval, sends "45". -/
theorem handleText_interval_witness :
    ((¬ ∃ n, Atoi (textFrom7 "45").Text = some n ∧ 1 ≤ n) →
      getState (handleText lowClient sampleParseFloat sampleNow (textFrom7 "45")
        awaitingIntervalBot) (textFrom7 "45").Sender = StateSettings_WaitInterval
      ∧ (handleText lowClient sampleParseFloat sampleNow (textFrom7 "45")
          awaitingIntervalBot).tempData = awaitingIntervalBot.tempData
      ∧ (handleText lowClient sampleParseFloat sampleNow (textFrom7 "45")
          awaitingIntervalBot).DB = awaitingIntervalBot.DB)
    ∧ (∀ n, Atoi (textFrom7 "45").Text = some n → 1 ≤ n →
      (handleText lowClient sampleParseFloat sampleNow (textFrom7 "45")
          awaitingIntervalBot).DB.firstUser (textFrom7 "45").Sender
        = some { sampleUser with CheckInterval := n, UpdatedAt := sampleNow }
      ∧ (handleText lowClient sampleParseFloat sampleNow (textFrom7 "45")
          awaitingIntervalBot).DB.bindings = awaitingIntervalBot.DB.bindings
      ∧ getState (handleText lowClient sampleParseFloat sampleNow (textFrom7 "45")
          awaitingIntervalBot) (textFrom7 "45").Sender = StateNone
      ∧ ((∀ x ∈ awaitingIntervalBot.DB.users, 1 ≤ x.CheckInterval) →
          ∀ x ∈ (handleText lowClient sampleParseFloat sampleNow (textFrom7 "45")
            awaitingIntervalBot).DB.users, 1 ≤ x.CheckInterval)) :=
  handleText_interval lowClient sampleParseFloat sampleNow (textFrom7 "45")
    awaitingIntervalBot sampleUser (by decide) (by decide) (by decide)

/-- Interval inputs evaluated: "0", "-5" and "abc" change neither state nor store, "45"
stores the interval 45 and makes the user idle. -/
theorem sample_interval_inputs :
    (∀ t ∈ ["0", "-5", "abc"],
      getState (handleText lowClient sampleParseFloat sampleNow (textFrom7 t)
          awaitingIntervalBot) 7 = StateSettings_WaitInterval
      ∧ (handleText lowClient sampleParseFloat sampleNow (textFrom7 t) awaitingIntervalBot).DB
          = awaitingIntervalBot.DB)
    ∧ (handleText lowClient sampleParseFloat sampleNow (textFrom7 "45")
        awaitingIntervalBot).DB.users
        = [⟨7, 0, sampleNow, Float64.finite 10, true, 45⟩]
    ∧ getState (handleText lowClient sampleParseFloat sampleNow (textFrom7 "45")
        awaitingIntervalBot) 7 = StateNone := by
  decide

/-- C7, the code at the failing input.  User 42 has no stored record and is awaiting a new
interval; the text is "45".  `handleText` does not look at the error of `DB.First`: it saves a
zero-keyed record, which the store inserts under the key 1, confirms the update, and the
settings view then creates the record of user 42 with the default interval 60.  The check
interval of user 42 is not 45. -/
theorem handleText_interval_no_record :
    strangerIntervalBot.DB.firstUser 42 = none
    ∧ getState strangerIntervalBot 42 = StateSettings_WaitInterval
    ∧ Atoi "45" = some 45
    ∧ (handleText lowClient sampleParseFloat sampleNow (textFrom42 "45")
        strangerIntervalBot).DB.firstUser 42
        = some ⟨42, sampleNow, sampleNow, Float64.finite 10, false, 60⟩
    ∧ (handleText lowClient sampleParseFloat sampleNow (textFrom42 "45")
        strangerIntervalBot).DB.users
        = [⟨1, sampleNow, sampleNow, Float64.finite 10, false, 45⟩,
           ⟨42, sampleNow, sampleNow, Float64.finite 10, false, 60⟩]
    ∧ (handleText lowClient sampleParseFloat sampleNow (textFrom42 "45")
        strangerIntervalBot).sent
        = [Out.send 42 Text.intervalUpdated false [], Out.send 42 Text.initUser false []]
    ∧ getState (handleText lowClient sampleParseFloat sampleNow (textFrom42 "45")
        strangerIntervalBot) 42 = StateNone := by
  decide

/-- C9 (amended). For a user with a stored record (stored users having non-zero keys),
`handleToggleAlert` negates the alert flag of the record and leaves threshold and check interval
as they were (update time set), changes no binding, and, through the settings view it renders,
makes the user idle and clears the scratch data of the user. -/
theorem handleToggleAlert_effect (now : Time) (c : Context) (bot : Bot) (user : User)
    (hkey : ∀ x ∈ bot.DB.users, x.ID ≠ 0) (hrec : bot.DB.firstUser c.Sender = some user) :
    (handleToggleAlert now c bot).DB.firstUser c.Sender
      = some { user with NotifyEnabled := !user.NotifyEnabled, UpdatedAt := now }
    ∧ (handleToggleAlert now c bot).DB.bindings = bot.DB.bindings
    ∧ getState (handleToggleAlert now c bot) c.Sender = StateNone
    ∧ (handleToggleAlert now c bot).tempData c.Sender = none := by
  obtain ⟨hmem, hid⟩ := firstUser_mem bot.DB c.Sender user hrec
  have hne : user.ID ≠ 0 := hkey user hmem
  obtain ⟨s1, s2, _⟩ := saveUser_stored bot.DB now
    { user with NotifyEnabled := !user.NotifyEnabled } hne ⟨user, hmem, rfl⟩
  have s1' : (bot.DB.saveUser now { user with NotifyEnabled := !user.NotifyEnabled }).firstUser
      c.Sender = some { user with NotifyEnabled := !user.NotifyEnabled, UpdatedAt := now } := by
    rw [← hid]; exact s1
  have hred : handleToggleAlert now c bot
      = (handleSettings now c
          { bot with
            DB := bot.DB.saveUser now ({ user with NotifyEnabled := !user.NotifyEnabled }) }).emit
          (Out.respond c.Sender (some Notice.settingsUpdated)) := by
    unfold handleToggleAlert
    simp only [hrec]
  obtain ⟨t1, t2, t3⟩ := handleSettings_stored now c
    { bot with DB := bot.DB.saveUser now ({ user with NotifyEnabled := !user.NotifyEnabled }) }
    _ s1'
  rw [hred]
  refine ⟨?_, ?_, ?_, ?_⟩
  · show (handleSettings now c _).DB.firstUser c.Sender = _
    rw [t1]; exact s1'
  · show (handleSettings now c _).DB.bindings = _
    rw [t1]; exact s2
  · exact t2
  · exact t3

/-- Instance of C9 (amended): user 7 toggles the alert switch while awaiting a customer code. -/
theorem handleToggleAlert_effect_witness :
    (handleToggleAlert sampleNow (textFrom7 "") awaitingCodeBot).DB.firstUser (textFrom7 "").Sender
      = some { sampleUser with NotifyEnabled := !sampleUser.NotifyEnabled, UpdatedAt := sampleNow }
    ∧ (handleToggleAlert sampleNow (textFrom7 "") awaitingCodeBot).DB.bindings
        = awaitingCodeBot.DB.bindings
    ∧ getState (handleToggleAlert sampleNow (textFrom7 "") awaitingCodeBot) (textFrom7 "").Sender
        = StateNone
    ∧ (handleToggleAlert sampleNow (textFrom7 "") awaitingCodeBot).tempData (textFrom7 "").Sender
        = none :=
  handleToggleAlert_effect sampleNow (textFrom7 "") awaitingCodeBot sampleUser
    (by decide) (by decide)

/-- C9 as stated fails: user 7 has a stored record, is awaiting a customer code and has the
account in the scratch data; after `handleToggleAlert` the user is idle and the scratch data is
gone. -/
theorem handleToggleAlert_counterexample :
    awaitingCodeBot.DB.firstUser 7 = some sampleUser
    ∧ getState awaitingCodeBot 7 = StateAddAccount_WaitCode
    ∧ getTempData awaitingCodeBot 7 "account" = "2021001"
    ∧ getState (handleToggleAlert sampleNow (textFrom7 "") awaitingCodeBot) 7 = StateNone
    ∧ getTempData (handleToggleAlert sampleNow (textFrom7 "") awaitingCodeBot) 7 "account" = "" := by
  decide

/-! ## Unbind -/

theorem countP_pos_of_exists (db : Database) (userID : Int) (account : String)
    (h : ∃ b ∈ db.bindings, b.UserID = userID ∧ b.Account = account) :
    (db.deleteBindings userID account).2 ≠ 0 := by
  obtain ⟨b, hb, h1, h2⟩ := h
  unfold Database.deleteBindings
  have : 0 < db.bindings.countP
      (fun b => decide (b.UserID = userID) && decide (b.Account = account)) :=
    List.countP_pos_iff.mpr ⟨b, hb, by simp [h1, h2]⟩
  exact Nat.pos_iff_ne_zero.mp this

theorem deleteBindings_again (db : Database) (userID : Int) (account : String) :
    ((db.deleteBindings userID account).1.deleteBindings userID account).1
        = (db.deleteBindings userID account).1
    ∧ ((db.deleteBindings userID account).1.deleteBindings userID account).2 = 0 := by
  unfold Database.deleteBindings
  constructor
  · simp only [List.filter_filter, Bool.and_self]
  · rw [List.countP_eq_zero]
    intro b hb h
    have hb2 := (List.mem_filter.mp hb).2
    dsimp only at hb2
    rw [h] at hb2
    cases hb2

theorem handleCallback_notFound (c : Context) (bot : Bot) (hun : c.Unique = "unbind")
    (htrim : TrimSpace c.Data = c.Data) (h0 : (bot.DB.deleteBindings c.Sender c.Data).2 = 0) :
    handleCallback c bot
      = ({ bot with DB := (bot.DB.deleteBindings c.Sender c.Data).1 } : Bot).emit
          (Out.respond c.Sender (some Notice.bindingNotFound)) := by
  have hu : TrimSpace c.Unique = "unbind" := by rw [hun]; decide
  unfold handleCallback
  simp only [hu, htrim, if_true, h0]

/-- Unbind of an account that trimming does not change.  For a user and an account identifier
that `strings.TrimSpace` leaves as it is
and under which the user has a binding, the unbind callback reports success, removes exactly
the bindings of that user with that account, keeps the other bindings and the users, and shows
the account list; the same callback repeated at once reports not-found and changes nothing
but the list of responses. -/
theorem handleCallback_unbind (c : Context) (bot : Bot) (hun : c.Unique = "unbind")
    (htrim : TrimSpace c.Data = c.Data)
    (hex : ∃ b ∈ bot.DB.bindings, b.UserID = c.Sender ∧ b.Account = c.Data) :
    (handleCallback c bot).DB.bindings
      = bot.DB.bindings.filter (fun b => !(decide (b.UserID = c.Sender) && decide (b.Account = c.Data)))
    ∧ (handleCallback c bot).DB.users = bot.DB.users
    ∧ (∃ view, (handleCallback c bot).sent
        = bot.sent ++ [Out.respond c.Sender (some Notice.unbindOK)] ++ [view])
    ∧ (handleCallback c (handleCallback c bot)).DB = (handleCallback c bot).DB
    ∧ (handleCallback c (handleCallback c bot)).states = (handleCallback c bot).states
    ∧ (handleCallback c (handleCallback c bot)).tempData = (handleCallback c bot).tempData
    ∧ (handleCallback c (handleCallback c bot)).queries = (handleCallback c bot).queries
    ∧ (handleCallback c (handleCallback c bot)).sent
        = (handleCallback c bot).sent ++ [Out.respond c.Sender (some Notice.bindingNotFound)] := by
  have hu : TrimSpace c.Unique = "unbind" := by rw [hun]; decide
  have hcount := countP_pos_of_exists bot.DB c.Sender c.Data hex
  have hfirst : handleCallback c bot
      = handleAccounts c (({ bot with DB := (bot.DB.deleteBindings c.Sender c.Data).1 } : Bot).emit
          (Out.respond c.Sender (some Notice.unbindOK))) := by
    unfold handleCallback
    simp only [hu, htrim, if_true, hcount, if_false]
  have hdb : (handleCallback c bot).DB = (bot.DB.deleteBindings c.Sender c.Data).1 := by
    rw [hfirst]; rfl
  have hsecond : handleCallback c (handleCallback c bot)
      = ({ handleCallback c bot with DB := (handleCallback c bot).DB } : Bot).emit
          (Out.respond c.Sender (some Notice.bindingNotFound)) := by
    obtain ⟨a1, a2⟩ := deleteBindings_again bot.DB c.Sender c.Data
    rw [← hdb] at a1 a2
    have := handleCallback_notFound c (handleCallback c bot) hun htrim a2
    rw [a1] at this
    exact this
  refine ⟨?_, ?_, ?_, ?_, ?_, ?_, ?_, ?_⟩
  · rw [hdb]; rfl
  · rw [hdb]; rfl
  · rw [hfirst]; exact ⟨_, rfl⟩
  · rw [hsecond]; rfl
  · rw [hsecond]; rfl
  · rw [hsecond]; rfl
  · rw [hsecond]; rfl
  · rw [hsecond]; rfl

/-- Instance on the example data: user 7 unbinds the account `2021001`. -/
theorem handleCallback_unbind_witness :
    (handleCallback (unbindFrom7 "2021001") sampleBot).DB.bindings
      = sampleBot.DB.bindings.filter (fun b =>
          !(decide (b.UserID = (unbindFrom7 "2021001").Sender)
            && decide (b.Account = (unbindFrom7 "2021001").Data)))
    ∧ (handleCallback (unbindFrom7 "2021001") sampleBot).DB.users = sampleBot.DB.users
    ∧ (∃ view, (handleCallback (unbindFrom7 "2021001") sampleBot).sent
        = sampleBot.sent
          ++ [Out.respond (unbindFrom7 "2021001").Sender (some Notice.unbindOK)] ++ [view])
    ∧ (handleCallback (unbindFrom7 "2021001")
        (handleCallback (unbindFrom7 "2021001") sampleBot)).DB
        = (handleCallback (unbindFrom7 "2021001") sampleBot).DB
    ∧ (handleCallback (unbindFrom7 "2021001")
        (handleCallback (unbindFrom7 "2021001") sampleBot)).states
        = (handleCallback (unbindFrom7 "2021001") sampleBot).states
    ∧ (handleCallback (unbindFrom7 "2021001")
        (handleCallback (unbindFrom7 "2021001") sampleBot)).tempData
        = (handleCallback (unbindFrom7 "2021001") sampleBot).tempData
    ∧ (handleCallback (unbindFrom7 "2021001")
        (handleCallback (unbindFrom7 "2021001") sampleBot)).queries
        = (handleCallback (unbindFrom7 "2021001") sampleBot).queries
    ∧ (handleCallback (unbindFrom7 "2021001")
        (handleCallback (unbindFrom7 "2021001") sampleBot)).sent
        = (handleCallback (unbindFrom7 "2021001") sampleBot).sent
          ++ [Out.respond (unbindFrom7 "2021001").Sender (some Notice.bindingNotFound)] :=
  handleCallback_unbind (unbindFrom7 "2021001") sampleBot (by decide) (by decide)
    ⟨sampleBinding, by decide, by decide, by decide⟩

/-- Two unbinds in a row evaluated: the first unbind empties the binding table and answers
"unbound", the second answers "not found". -/
theorem sample_unbind_twice :
    (handleCallback (unbindFrom7 "2021001") sampleBot).DB.bindings = []
    ∧ (handleCallback (unbindFrom7 "2021001") sampleBot).sent
        = [Out.respond 7 (some Notice.unbindOK),
           Out.send 7 (Text.accountList []) true [btnAddAccount]]
    ∧ (handleCallback (unbindFrom7 "2021001")
        (handleCallback (unbindFrom7 "2021001") sampleBot)).sent
        = [Out.respond 7 (some Notice.unbindOK),
           Out.send 7 (Text.accountList []) true [btnAddAccount],
           Out.respond 7 (some Notice.bindingNotFound)] := by
  decide

/-- C8, the code at the failing input.  User 7 binds the account text that begins with a blank:
`handleText` stores it as entered, and `handleAccounts` lists the binding with an unbind button
whose data is that stored text.  `handleCallback` trims the data of the button before it
deletes, so the press of that button reports not-found and the binding stays. -/
theorem handleCallback_unbind_blank_account :
    blankAccountBot.DB.bindings
      = [⟨1, 7, " 2021001", "1024", "A-101", Float64.finite 3, sampleNow⟩]
    ∧ (handleAccounts (textFrom7 "") blankAccountBot).sent.getLast?
      = some (Out.send 7 (Text.accountList [(" 2021001", "A\\-101")]) true
          [btnAddAccount, ⟨"unbind", " 2021001"⟩])
    ∧ (handleCallback (unbindFrom7 " 2021001") blankAccountBot).sent.getLast?
      = some (Out.respond 7 (some Notice.bindingNotFound))
    ∧ (handleCallback (unbindFrom7 " 2021001") blankAccountBot).DB.bindings
      = blankAccountBot.DB.bindings := by
  decide

/-! ## Scratch data and the conversation state -/

theorem handleSettings_idle (now : Time) (c : Context) (b : Bot) :
    (handleSettings now c b).tempData c.Sender = none
    ∧ getState (handleSettings now c b) c.Sender = StateNone := by
  unfold handleSettings
  dsimp only
  split
  · exact ⟨by simp [setState, Bot.emit], by simp [getState, setState, Bot.emit, StateNone]⟩
  · exact ⟨by simp [setState, Bot.emit], by simp [getState, setState, Bot.emit, StateNone]⟩

/-- C10. For a user in one of the five workflow states who, if idle, has no scratch data: when
the text is rejected in the awaiting-threshold or awaiting-interval state, `handleText` leaves
the state and the scratch data of the user as they were; in every other case the user has
scratch data after `handleText` exactly when the resulting state is not idle.  Moreover
`setState` to idle removes the scratch data of that user in the same call. -/
theorem handleText_scratch (client : Client) (ParseFloat : String → Option Float64)
    (now : Time) (c : Context) (bot : Bot)
    (hwork : getState bot c.Sender = StateNone
      ∨ getState bot c.Sender = StateAddAccount_WaitAccount
      ∨ getState bot c.Sender = StateAddAccount_WaitCode
      ∨ getState bot c.Sender = StateSettings_WaitThreshold
      ∨ getState bot c.Sender = StateSettings_WaitInterval)
    (hidle : getState bot c.Sender = StateNone → bot.tempData c.Sender = none) :
    (((getState bot c.Sender = StateSettings_WaitThreshold ∧ ParseFloat c.Text = none)
        ∨ (getState bot c.Sender = StateSettings_WaitInterval
            ∧ ¬ ∃ n, Atoi c.Text = some n ∧ 1 ≤ n)) →
      getState (handleText client ParseFloat now c bot) c.Sender = getState bot c.Sender
      ∧ (handleText client ParseFloat now c bot).tempData = bot.tempData)
    ∧ (¬ ((getState bot c.Sender = StateSettings_WaitThreshold ∧ ParseFloat c.Text = none)
        ∨ (getState bot c.Sender = StateSettings_WaitInterval
            ∧ ¬ ∃ n, Atoi c.Text = some n ∧ 1 ≤ n)) →
      ((handleText client ParseFloat now c bot).tempData c.Sender ≠ none
        ↔ getState (handleText client ParseFloat now c bot) c.Sender ≠ StateNone))
    ∧ (∀ (b : Bot) (u : Int), (setState b u StateNone).tempData u = none
        ∧ getState (setState b u StateNone) u = StateNone) := by
  have hidleOK : ∀ (b : Bot), b.tempData c.Sender = none → getState b c.Sender = StateNone →
      (b.tempData c.Sender ≠ none ↔ getState b c.Sender ≠ StateNone) := by
    intro b h1 h2
    simp [h1, h2]
  refine ⟨?_, ?_, fun b u => ⟨tempData_setState_none b u, getState_setState b u StateNone⟩⟩
  · rintro (⟨hs, hp⟩ | ⟨hs, hp⟩)
    · unfold handleText
      simp only [hs, StateSettings_WaitThreshold, StateAddAccount_WaitCode,
        StateAddAccount_WaitAccount, hp]
      simp only [show ¬ ((3 : Int) = 1) by decide, show ¬ ((3 : Int) = 2) by decide, if_false,
        if_true]
      exact ⟨hs, rfl⟩
    · unfold handleText
      simp only [hs, StateSettings_WaitInterval, StateSettings_WaitThreshold,
        StateAddAccount_WaitCode, StateAddAccount_WaitAccount]
      simp only [show ¬ ((4 : Int) = 1) by decide, show ¬ ((4 : Int) = 2) by decide,
        show ¬ ((4 : Int) = 3) by decide, if_false, if_true]
      cases ha : Atoi c.Text with
      | none => exact ⟨hs, rfl⟩
      | some val =>
        have hlt : val < 1 := by
          by_contra hge
          exact hp ⟨val, ha, not_lt.mp hge⟩
        simp only [hlt, if_true]
        exact ⟨hs, rfl⟩
  · intro hnot
    rcases hwork with hs | hs | hs | hs | hs
    · have : handleText client ParseFloat now c bot = bot := by
        unfold handleText
        simp only [hs, StateNone, StateSettings_WaitInterval, StateSettings_WaitThreshold,
          StateAddAccount_WaitCode, StateAddAccount_WaitAccount]
        simp only [show ¬ ((0 : Int) = 1) by decide, show ¬ ((0 : Int) = 2) by decide,
          show ¬ ((0 : Int) = 3) by decide, show ¬ ((0 : Int) = 4) by decide, if_false]
      rw [this]
      exact hidleOK bot (hidle hs) hs
    · unfold handleText
      simp only [hs, if_true]
      simp [getState, setState, setTempData, Bot.emit, StateAddAccount_WaitCode, StateNone]
    · unfold handleText
      simp only [hs, StateAddAccount_WaitCode, StateAddAccount_WaitAccount]
      simp only [show ¬ ((2 : Int) = 1) by decide, if_false, if_true]
      unfold GetBalance
      cases hq : client (bot.emit (Out.send c.Recipient Text.verifying false [])).queries.length
          (getTempData bot c.Sender "account") c.Text with
      | error err => simp [getState, setState, Bot.emit, StateNone]
      | ok rooms =>
        cases rooms with
        | nil => simp [getState, setState, Bot.emit, StateNone]
        | cons r rs =>
          dsimp only
          split <;> simp [getState, setState, Bot.emit, StateNone]
    · have hp : ∃ v, ParseFloat c.Text = some v := by
        cases h : ParseFloat c.Text with
        | none => exact absurd (Or.inl ⟨hs, h⟩) hnot
        | some v => exact ⟨v, rfl⟩
      obtain ⟨v, hv⟩ := hp
      unfold handleText
      simp only [hs, StateSettings_WaitThreshold, StateAddAccount_WaitCode,
        StateAddAccount_WaitAccount, hv]
      simp only [show ¬ ((3 : Int) = 1) by decide, show ¬ ((3 : Int) = 2) by decide, if_false,
        if_true]
      exact hidleOK _ (handleSettings_idle now c _).1 (handleSettings_idle now c _).2
    · have hp : ∃ n, Atoi c.Text = some n ∧ 1 ≤ n := by
        by_contra h
        exact hnot (Or.inr ⟨hs, h⟩)
      obtain ⟨n, hn, hn1⟩ := hp
      unfold handleText
      simp only [hs, StateSettings_WaitInterval, StateSettings_WaitThreshold,
        StateAddAccount_WaitCode, StateAddAccount_WaitAccount, hn]
      simp only [show ¬ ((4 : Int) = 1) by decide, show ¬ ((4 : Int) = 2) by decide,
        show ¬ ((4 : Int) = 3) by decide, if_false, if_true, not_lt.mpr hn1]
      exact hidleOK _ (handleSettings_idle now c _).1 (handleSettings_idle now c _).2

/-- Instance of C10: user 7, awaiting the account identifier, sends it. -/
theorem handleText_scratch_witness :
    (((getState awaitingAccountBot (textFrom7 "2021001").Sender = StateSettings_WaitThreshold
          ∧ sampleParseFloat (textFrom7 "2021001").Text = none)
        ∨ (getState awaitingAccountBot (textFrom7 "2021001").Sender = StateSettings_WaitInterval
            ∧ ¬ ∃ n, Atoi (textFrom7 "2021001").Text = some n ∧ 1 ≤ n)) →
      getState (handleText lowClient sampleParseFloat sampleNow (textFrom7 "2021001")
          awaitingAccountBot) (textFrom7 "2021001").Sender
        = getState awaitingAccountBot (textFrom7 "2021001").Sender
      ∧ (handleText lowClient sampleParseFloat sampleNow (textFrom7 "2021001")
          awaitingAccountBot).tempData = awaitingAccountBot.tempData)
    ∧ (¬ ((getState awaitingAccountBot (textFrom7 "2021001").Sender = StateSettings_WaitThreshold
          ∧ sampleParseFloat (textFrom7 "2021001").Text = none)
        ∨ (getState awaitingAccountBot (textFrom7 "2021001").Sender = StateSettings_WaitInterval
            ∧ ¬ ∃ n, Atoi (textFrom7 "2021001").Text = some n ∧ 1 ≤ n)) →
      ((handleText lowClient sampleParseFloat sampleNow (textFrom7 "2021001")
          awaitingAccountBot).tempData (textFrom7 "2021001").Sender ≠ none
        ↔ getState (handleText lowClient sampleParseFloat sampleNow (textFrom7 "2021001")
            awaitingAccountBot) (textFrom7 "2021001").Sender ≠ StateNone))
    ∧ (∀ (b : Bot) (u : Int), (setState b u StateNone).tempData u = none
        ∧ getState (setState b u StateNone) u = StateNone) :=
  handleText_scratch lowClient sampleParseFloat sampleNow (textFrom7 "2021001")
    awaitingAccountBot (Or.inr (Or.inl (by decide))) (fun h => absurd h (by decide))

/-- The add-account workflow evaluated: after the account the user awaits the code and
the scratch data holds the account; after the code the user is idle and the scratch data is
gone, here with the binding already present. -/
theorem sample_add_account_flow :
    getState awaitingCodeBot 7 = StateAddAccount_WaitCode
    ∧ getTempData awaitingCodeBot 7 "account" = "2021001"
    ∧ getState (handleText lowClient sampleParseFloat sampleNow (textFrom7 "1024")
        awaitingCodeBot) 7 = StateNone
    ∧ getTempData (handleText lowClient sampleParseFloat sampleNow (textFrom7 "1024")
        awaitingCodeBot) 7 "account" = ""
    ∧ (handleText lowClient sampleParseFloat sampleNow (textFrom7 "1024") awaitingCodeBot).sent
        = [Out.send 7 Text.askAccount true [],
           Out.send 7 (Text.gotAccount "2021001") true [],
           Out.send 7 Text.verifying false [],
           Out.send 7 Text.alreadyBound false []] := by
  decide

/-! ## The primary keys are kept by every operation -/

theorem foldl_max_nat (l : List Binding) (m : Nat) :
    m ≤ l.foldl (fun m r => max m r.ID) m ∧ ∀ r ∈ l, r.ID ≤ l.foldl (fun m r => max m r.ID) m := by
  induction l generalizing m with
  | nil => exact ⟨le_refl _, fun r hr => absurd hr (List.not_mem_nil r)⟩
  | cons x xs ih =>
    rw [List.foldl_cons]
    obtain ⟨h1, h2⟩ := ih (max m x.ID)
    refine ⟨le_trans (le_max_left _ _) h1, ?_⟩
    intro r hr
    rcases List.mem_cons.mp hr with rfl | hr
    · exact le_trans (le_max_right _ _) h1
    · exact h2 r hr

theorem foldl_max_int (l : List User) (m : Int) :
    m ≤ l.foldl (fun m u => max m u.ID) m ∧ ∀ u ∈ l, u.ID ≤ l.foldl (fun m u => max m u.ID) m := by
  induction l generalizing m with
  | nil => exact ⟨le_refl _, fun r hr => absurd hr (List.not_mem_nil r)⟩
  | cons x xs ih =>
    rw [List.foldl_cons]
    obtain ⟨h1, h2⟩ := ih (max m x.ID)
    refine ⟨le_trans (le_max_left _ _) h1, ?_⟩
    intro r hr
    rcases List.mem_cons.mp hr with rfl | hr
    · exact le_trans (le_max_right _ _) h1
    · exact h2 r hr

theorem map_replace_binding_keys (rs : List Binding) (b : Binding) :
    (rs.map (fun r => if r.ID = b.ID then b else r)).map Binding.ID = rs.map Binding.ID := by
  rw [List.map_map]
  apply List.map_congr_left
  intro r _
  by_cases h : r.ID = b.ID
  · simp [h]
  · simp [h]

theorem map_replace_user_keys (rs : List User) (u row : User) (hrow : row.ID = u.ID) :
    (rs.map (fun r => if r.ID = u.ID then row else r)).map User.ID = rs.map User.ID := by
  rw [List.map_map]
  apply List.map_congr_left
  intro r _
  by_cases h : r.ID = u.ID
  · simp [h, hrow]
  · simp [h]

theorem wellKeyed_createBinding (db : Database) (b : Binding) (hk : WellKeyed db) :
    WellKeyed (db.createBinding b).1 := by
  unfold Database.createBinding
  by_cases h0 : b.ID = 0
  · simp only [h0, if_true]
    obtain ⟨_, hmax⟩ := foldl_max_nat db.bindings 0
    refine ⟨hk.userKeys, ?_, ?_, hk.userKeysPos⟩
    · show ((db.bindings ++ [_]).map Binding.ID).Nodup
      rw [List.map_append, List.nodup_append]
      refine ⟨hk.bindingKeys, List.nodup_singleton _, ?_⟩
      intro id h1 h2
      simp only [List.map_cons, List.map_nil, List.mem_singleton] at h2
      obtain ⟨r, hr, hrid⟩ := List.mem_map.mp h1
      have := hmax r hr
      rw [hrid, h2] at this
      omega
    · intro r hr
      rcases List.mem_append.mp hr with h | h
      · exact hk.bindingKeysPos r h
      · rw [List.mem_singleton] at h
        rw [h]
        show max db.bindingSeq _ + 1 ≠ 0
        omega
  · simp only [h0, if_false]
    by_cases hex : db.bindings.any (fun r => decide (r.ID = b.ID)) = true
    · simp only [hex, if_true]
      exact hk
    · simp only [hex, if_false]
      have hno : ∀ x ∈ db.bindings, ¬ x.ID = b.ID := by simpa using hex
      refine ⟨hk.userKeys, ?_, ?_, hk.userKeysPos⟩
      · show ((db.bindings ++ [b]).map Binding.ID).Nodup
        rw [List.map_append, List.nodup_append]
        refine ⟨hk.bindingKeys, List.nodup_singleton _, ?_⟩
        intro id h1 h2
        simp only [List.map_cons, List.map_nil, List.mem_singleton] at h2
        obtain ⟨r, hr, hrid⟩ := List.mem_map.mp h1
        exact hno r hr (hrid.trans h2)
      · intro r hr
        rcases List.mem_append.mp hr with h | h
        · exact hk.bindingKeysPos r h
        · rw [List.mem_singleton] at h
          rw [h]
          exact h0

theorem wellKeyed_saveBinding (db : Database) (b : Binding) (hk : WellKeyed db) :
    WellKeyed (db.saveBinding b).1 := by
  unfold Database.saveBinding
  by_cases h0 : b.ID = 0
  · simp only [h0, if_true]
    exact wellKeyed_createBinding db b hk
  · simp only [h0, if_false]
    by_cases hex : db.bindings.any (fun r => decide (r.ID = b.ID)) = true
    · simp only [hex, if_true]
      refine ⟨hk.userKeys, ?_, ?_, hk.userKeysPos⟩
      · show ((db.bindings.map _).map Binding.ID).Nodup
        rw [map_replace_binding_keys]
        exact hk.bindingKeys
      · intro r hr
        obtain ⟨x, hx, hxr⟩ := List.mem_map.mp hr
        by_cases hxb : x.ID = b.ID
        · simp only [hxb, if_true] at hxr
          rw [← hxr]; exact h0
        · simp only [hxb, if_false] at hxr
          rw [← hxr]; exact hk.bindingKeysPos x hx
    · simp only [hex, if_false]
      exact wellKeyed_createBinding db b hk

theorem wellKeyed_deleteBindings (db : Database) (userID : Int) (account : String)
    (hk : WellKeyed db) : WellKeyed (db.deleteBindings userID account).1 := by
  unfold Database.deleteBindings
  refine ⟨hk.userKeys, ?_, ?_, hk.userKeysPos⟩
  · exact hk.bindingKeys.sublist ((List.filter_sublist _).map _)
  · intro r hr
    exact hk.bindingKeysPos r (List.mem_of_mem_filter hr)

theorem wellKeyed_createUser (db : Database) (now : Time) (u : User) (hk : WellKeyed db) :
    WellKeyed (db.createUser now u) := by
  unfold Database.createUser
  dsimp only
  by_cases h0 : u.ID = 0
  · simp only [h0, if_true]
    obtain ⟨hinit, hmax⟩ := foldl_max_int db.users (max db.userSeq 0)
    have hpos : 0 < db.nextUserID := by
      unfold Database.nextUserID
      have : (0 : Int) ≤ max db.userSeq 0 := le_max_right _ _
      omega
    refine ⟨?_, hk.bindingKeys, hk.bindingKeysPos, ?_⟩
    · show ((db.users ++ [_]).map User.ID).Nodup
      rw [List.map_append, List.nodup_append]
      refine ⟨hk.userKeys, List.nodup_singleton _, ?_⟩
      intro id h1 h2
      simp only [List.map_cons, List.map_nil, List.mem_singleton] at h2
      obtain ⟨r, hr, hrid⟩ := List.mem_map.mp h1
      have := hmax r hr
      rw [hrid, h2] at this
      have hid : db.nextUserID
          = db.users.foldl (fun m u => max m u.ID) (max db.userSeq 0) + 1 := rfl
      have h3 : db.nextUserID ≤ db.users.foldl (fun m u => max m u.ID) (max db.userSeq 0) := this
      omega
    · intro r hr
      rcases List.mem_append.mp hr with h | h
      · exact hk.userKeysPos r h
      · rw [List.mem_singleton] at h
        rw [h]
        show db.nextUserID ≠ 0
        omega
  · simp only [h0, if_false]
    by_cases hex : db.users.any (fun r => decide (r.ID = u.ID)) = true
    · simp only [hex, if_true]
      exact hk
    · simp only [hex, if_false]
      have hno : ∀ x ∈ db.users, ¬ x.ID = u.ID := by simpa using hex
      refine ⟨?_, hk.bindingKeys, hk.bindingKeysPos, ?_⟩
      · show ((db.users ++ [_]).map User.ID).Nodup
        rw [List.map_append, List.nodup_append]
        refine ⟨hk.userKeys, List.nodup_singleton _, ?_⟩
        intro id h1 h2
        simp only [List.map_cons, List.map_nil, List.mem_singleton] at h2
        obtain ⟨r, hr, hrid⟩ := List.mem_map.mp h1
        exact hno r hr (hrid.trans h2)
      · intro r hr
        rcases List.mem_append.mp hr with h | h
        · exact hk.userKeysPos r h
        · rw [List.mem_singleton] at h
          rw [h]
          exact h0

theorem wellKeyed_saveUser (db : Database) (now : Time) (u : User) (hk : WellKeyed db) :
    WellKeyed (db.saveUser now u) := by
  unfold Database.saveUser
  by_cases h0 : u.ID = 0
  · simp only [h0, if_true]
    exact wellKeyed_createUser db now u hk
  · simp only [h0, if_false]
    by_cases hex : db.users.any (fun r => decide (r.ID = u.ID)) = true
    · simp only [hex, if_true]
      refine ⟨?_, hk.bindingKeys, hk.bindingKeysPos, ?_⟩
      · show ((db.users.map _).map User.ID).Nodup
        rw [map_replace_user_keys db.users u { u with UpdatedAt := now } rfl]
        exact hk.userKeys
      · intro r hr
        obtain ⟨x, hx, hxr⟩ := List.mem_map.mp hr
        by_cases hxb : x.ID = u.ID
        · simp only [hxb, if_true] at hxr
          rw [← hxr]; exact h0
        · simp only [hxb, if_false] at hxr
          rw [← hxr]; exact hk.userKeysPos x hx
    · simp only [hex, if_false]
      exact wellKeyed_createUser db now u hk

theorem wellKeyed_handleSettings (now : Time) (c : Context) (bot : Bot)
    (hk : WellKeyed bot.DB) : WellKeyed (handleSettings now c bot).DB := by
  unfold handleSettings
  dsimp only
  split
  · exact wellKeyed_createUser _ now _ hk
  · exact hk

theorem wellKeyed_handleToggleAlert (now : Time) (c : Context) (bot : Bot)
    (hk : WellKeyed bot.DB) : WellKeyed (handleToggleAlert now c bot).DB := by
  unfold handleToggleAlert
  split
  · exact hk
  · exact wellKeyed_handleSettings now c _ (wellKeyed_saveUser _ now _ hk)

theorem wellKeyed_handleCallback (c : Context) (bot : Bot) (hk : WellKeyed bot.DB) :
    WellKeyed (handleCallback c bot).DB := by
  unfold handleCallback
  dsimp only
  split
  · split
    · exact wellKeyed_deleteBindings bot.DB c.Sender _ hk
    · exact wellKeyed_deleteBindings bot.DB c.Sender _ hk
  · exact hk

theorem wellKeyed_handleText (client : Client) (ParseFloat : String → Option Float64)
    (now : Time) (c : Context) (bot : Bot) (hk : WellKeyed bot.DB) :
    WellKeyed (handleText client ParseFloat now c bot).DB := by
  by_cases h1 : getState bot c.Sender = StateAddAccount_WaitAccount
  · unfold handleText
    simp only [h1, if_true]
    exact hk
  by_cases h2 : getState bot c.Sender = StateAddAccount_WaitCode
  · unfold handleText
    simp only [h2, StateAddAccount_WaitCode, StateAddAccount_WaitAccount]
    simp only [show ¬ ((2 : Int) = 1) by decide, if_false, if_true]
    unfold GetBalance
    cases hq : client (bot.emit (Out.send c.Recipient Text.verifying false [])).queries.length
        (getTempData bot c.Sender "account") c.Text with
    | error err => exact hk
    | ok rooms =>
      cases rooms with
      | nil => exact hk
      | cons room0 rest =>
        dsimp only
        split
        · exact hk
        · exact wellKeyed_createBinding bot.DB _ hk
  by_cases h3 : getState bot c.Sender = StateSettings_WaitThreshold
  · unfold handleText
    simp only [h3, StateSettings_WaitThreshold, StateAddAccount_WaitCode,
      StateAddAccount_WaitAccount]
    simp only [show ¬ ((3 : Int) = 1) by decide, show ¬ ((3 : Int) = 2) by decide, if_false,
      if_true]
    cases ParseFloat c.Text with
    | none => exact hk
    | some v => exact wellKeyed_handleSettings now c _ (wellKeyed_saveUser bot.DB now _ hk)
  by_cases h4 : getState bot c.Sender = StateSettings_WaitInterval
  · unfold handleText
    simp only [h4, StateSettings_WaitInterval, StateSettings_WaitThreshold,
      StateAddAccount_WaitCode, StateAddAccount_WaitAccount]
    simp only [show ¬ ((4 : Int) = 1) by decide, show ¬ ((4 : Int) = 2) by decide,
      show ¬ ((4 : Int) = 3) by decide, if_false, if_true]
    cases Atoi c.Text with
    | none => exact hk
    | some v =>
      dsimp only
      split
      · exact hk
      · exact wellKeyed_handleSettings now c _ (wellKeyed_saveUser bot.DB now _ hk)
  · unfold handleText
    simp only [h1, h2, h3, h4, if_false]
    exact hk

theorem wellKeyed_foldl_checkRoom (now : Time) (u : User) (rooms : List RoomInfo) (b : Binding)
    (bot : Bot) (hk : WellKeyed bot.DB) :
    WellKeyed (rooms.foldl (checkRoom now u) (b, bot)).2.DB := by
  induction rooms generalizing b bot with
  | nil => exact hk
  | cons r rs ih =>
    rw [List.foldl_cons]
    have h2 : checkRoom now u (b, bot) r
        = ((checkRoom now u (b, bot) r).1, (checkRoom now u (b, bot) r).2) := rfl
    rw [h2]
    apply ih
    unfold checkRoom
    have hdb : (if r.Balance.lt u.NotifyThreshold then bot.emit (alertFor u r) else bot).DB
        = bot.DB := by split <;> rfl
    simp only [hdb]
    exact wellKeyed_saveBinding bot.DB _ hk

theorem wellKeyed_queryBinding (client : Client) (now : Time) (bot : Bot) (e : User × Binding)
    (hk : WellKeyed bot.DB) : WellKeyed (queryBinding client now bot e).DB := by
  unfold queryBinding GetBalance
  cases h : client bot.queries.length e.2.Account e.2.CustomerCode with
  | error err => exact hk
  | ok rooms => exact wellKeyed_foldl_checkRoom now e.1 rooms e.2 _ hk

/-- The monitoring pass keeps the primary keys of the store unique and non-zero. -/
theorem wellKeyed_CheckLowBalance (client : Client) (now : Time) (bot : Bot)
    (hk : WellKeyed bot.DB) : WellKeyed (CheckLowBalance client now bot).DB := by
  rw [CheckLowBalance_eq]
  generalize dueList now bot.DB = l
  induction l generalizing bot with
  | nil => exact hk
  | cons e l ih =>
    rw [List.foldl_cons]
    exact ih _ (wellKeyed_queryBinding client now bot e hk)

end WanXiao
